import Mathlib

/-!
# Allocator management of the Vivante GPU driver (gc_hal_kernel_allocator.c)

A shallow embedding of `gckOS_ImportAllocators` and `gckOS_FreeAllocators`
(drivers/mxc/gpu-viv/hal/os/linux/kernel/gc_hal_kernel_allocator.c) together
with the two static debugfs helpers they call.

The kernel object `gckOS` becomes a record that is passed through every
function.  Calls that leave the file (the constructors of the descriptor
table, the destructors stored in the allocators, the debugfs directory
functions, the print and trace macros) are recorded, in the order in which
they happen, in the field `log`.
-/

namespace GcHal

/-! ## Status codes -/

/-- Modelled from the spec: the status type `gceSTATUS` is declared in
gc_hal_enum.h, a header outside the files embedded here.  The spec only
distinguishes success from failure; a status is an integer code. -/
abbrev gceSTATUS := Int

/-- Modelled from the spec: `gcvSTATUS_OK`, the success status (an enumerator of
gc_hal_enum.h, outside the files embedded here). -/
def gcvSTATUS_OK : gceSTATUS := 0

/-- Modelled from the spec: the test `gcmIS_ERROR(status)` (a macro of
gc_hal_base.h, outside the files embedded here): failures are the negative
codes, so that success and warnings are not errors. -/
def gcmIS_ERROR (status : gceSTATUS) : Bool := decide (status < 0)

/-! ## Data model -/

/-- Modelled from the spec: the object behind a `gckALLOCATOR` pointer
(`struct _gckALLOCATOR`, declared in gc_hal_kernel_allocator.h, outside the
files embedded here).  Only the members the source file touches are
kept: `name` and `destructor` (a function pointer, given by its address); the
member `link` is represented by the position of the object in
`gckOS.allocatorList`.  `addr` is the address of the object, that is the value
of the pointer, which tells two objects with equal members apart. -/
structure gckALLOCATOR where
  addr : Nat
  name : String
  destructor : Nat
deriving DecidableEq, Repr

/-- One call that leaves the file, as recorded in `gckOS.log`. -/
inductive Event where
  /-- The call `gckDEBUGFS_DIR_Init(dir, device->debugfsDir.root, name)`. -/
  | debugfsDirInit (name : String)
  /-- The call `gckDEBUGFS_DIR_Deinit(dir)`. -/
  | debugfsDirDeinit
  /-- The call `allocatorArray[i].construct(Os, &Os->allocatorDebugfsDir, &allocator)`. -/
  | construct (i : Nat)
  /-- The message `gcmkPRINT("["DEVICE_NAME"]: Can't construct allocator(%s)", name)`. -/
  | print (name : String)
  /-- The message `gcmkTRACE_ZONE(..., "%s(%d) Allocator: %s", ..., name)`. -/
  | traceZone (name : String)
  /-- The call `allocator->destructor(allocator)`: the function pointer that is
  called, its argument, and the entries linked in `Os->allocatorList` at the
  moment of the call. -/
  | destructor (fn : Nat) (allocator : gckALLOCATOR) (linked : List gckALLOCATOR)
deriving DecidableEq, Repr

/-- Modelled from the spec: the part of `struct _gckOS` (declared in
gc_hal_kernel_linux.h, outside the files embedded here) the file works on: the
list anchored at `Os->allocatorList`, an ordered collection given as the
sequence of its entries from `head->next` onwards, and the record of the
external calls made so far. -/
structure gckOS where
  allocatorList : List gckALLOCATOR
  log : List Event
deriving DecidableEq, Repr

/-- Modelled from the spec: one element of `allocatorArray`
(gc_hal_kernel_allocator_array.h, outside the files embedded here), a pairing
of the allocator name and the `construct` member.  `construct` is
`none` for a null function pointer; otherwise it holds what the call of the
function yields: the status it returns and the allocator it stores through its
last parameter. -/
structure gcsALLOCATOR_DESC where
  name : String
  construct : Option (gceSTATUS × gckALLOCATOR)
deriving DecidableEq, Repr

/-! ## The list primitives of linux/list.h -/

/-- Modelled from the spec: `INIT_LIST_HEAD` (linux/list.h, outside the files
embedded here) makes the list anchored at the head empty. -/
def INIT_LIST_HEAD {α : Type} : List α := []

/-- Modelled from the spec: `list_add_tail(new, head)` (linux/list.h) appends
the new entry after the last entry of the ordered collection. -/
def list_add_tail {α : Type} (new : α) (head : List α) : List α := head ++ [new]

/-- Modelled from the spec: `list_del(entry)` (linux/list.h) unlinks the entry
from the list it is on. -/
def list_del {α : Type} [DecidableEq α] (entry : α) (head : List α) : List α :=
  head.erase entry

/-- Modelled from the spec: `list_for_each_entry(pos, head, member)`
(linux/list.h) runs the body once for every entry, from the first to the last;
the body does not change the list. -/
def list_for_each_entry {α σ : Type} (body : α → σ → σ) : List α → σ → σ
  | [], s => s
  | pos :: rest, s => list_for_each_entry body rest (body pos s)

/-- Modelled from the spec: `list_for_each_entry_safe(pos, n, head, member)`
(linux/list.h) runs the body once for every entry that is linked when the loop
starts, from the first to the last.  The successor `n` of `pos` is read before
the body runs, so the body may unlink (and free) `pos`. -/
def list_for_each_entry_safe {α σ : Type} (body : α → σ → σ) : List α → σ → σ
  | [], s => s
  | pos :: n, s => list_for_each_entry_safe body n (body pos s)

/-! ## Debugfs support -/

/-- The static function `_AllocatorDebugfsInit`.  `dirInit` is the status that
`gckDEBUGFS_DIR_Init(dir, device->debugfsDir.root, "allocators")` returns;
`gcmkONERROR` jumps to `OnError`, which returns that status, when it is an
error, and the function returns `gcvSTATUS_OK` otherwise. -/
def _AllocatorDebugfsInit (dirInit : gceSTATUS) (Os : gckOS) : gceSTATUS × gckOS :=
  let status := dirInit
  let Os := { Os with log := Os.log ++ [Event.debugfsDirInit "allocators"] }
  if gcmIS_ERROR status then (status, Os) else (gcvSTATUS_OK, Os)

/-- The static function `_AllocatorDebugfsCleanup`: one call of
`gckDEBUGFS_DIR_Deinit` on `&Os->allocatorDebugfsDir`. -/
def _AllocatorDebugfsCleanup (Os : gckOS) : gckOS :=
  { Os with log := Os.log ++ [Event.debugfsDirDeinit] }

/-! ## Allocator management -/

/-- The body of the `for` loop of `gckOS_ImportAllocators` for the element
`allocatorArray[i]`. -/
def importBody (i : Nat) (desc : gcsALLOCATOR_DESC) (Os : gckOS) : gckOS :=
  match desc.construct with
  | none => Os
  | some (status, allocator) =>
    let Os := { Os with log := Os.log ++ [Event.construct i] }
    if gcmIS_ERROR status then
      { Os with log := Os.log ++ [Event.print desc.name] }
    else
      let allocator := { allocator with name := desc.name }
      { Os with allocatorList := list_add_tail allocator Os.allocatorList }

/-- The loop `for (i = 0; i < gcmCOUNTOF(allocatorArray); i++)` of
`gckOS_ImportAllocators`, from index `i` on; the first argument holds the
elements `allocatorArray[i]`, `allocatorArray[i+1]`, ... still to be visited. -/
def importLoop : List gcsALLOCATOR_DESC → Nat → gckOS → gckOS
  | [], _, Os => Os
  | desc :: rest, i, Os => importLoop rest (i + 1) (importBody i desc Os)

/-- The block of `gckOS_ImportAllocators` that is compiled under `gcdDEBUG`:
a walk over `Os->allocatorList` that traces the name of every entry. -/
def traceAllocators (Os : gckOS) : gckOS :=
  list_for_each_entry
    (fun allocator Os => { Os with log := Os.log ++ [Event.traceZone allocator.name] })
    Os.allocatorList Os

/-- The function `gckOS_ImportAllocators`.  `gcdDEBUG` is the build switch of
that name, `allocatorArray` the descriptor table and `dirInit` the status of
the directory creation (see `_AllocatorDebugfsInit`).  The status returned by
`_AllocatorDebugfsInit` is not assigned to anything. -/
def gckOS_ImportAllocators (gcdDEBUG : Bool) (allocatorArray : List gcsALLOCATOR_DESC)
    (dirInit : gceSTATUS) (Os : gckOS) : gceSTATUS × gckOS :=
  let Os := (_AllocatorDebugfsInit dirInit Os).2
  let Os := { Os with allocatorList := INIT_LIST_HEAD }
  let Os := importLoop allocatorArray 0 Os
  let Os := if gcdDEBUG then traceAllocators Os else Os
  (gcvSTATUS_OK, Os)

/-- The body of the loop of `gckOS_FreeAllocators`: `list_del` of the entry,
then the call of its destructor. -/
def freeBody (allocator : gckALLOCATOR) (Os : gckOS) : gckOS :=
  let Os := { Os with allocatorList := list_del allocator Os.allocatorList }
  { Os with log := Os.log ++ [Event.destructor allocator.destructor allocator Os.allocatorList] }

/-- The function `gckOS_FreeAllocators`. -/
def gckOS_FreeAllocators (Os : gckOS) : gceSTATUS × gckOS :=
  let Os := list_for_each_entry_safe freeBody Os.allocatorList Os
  let Os := _AllocatorDebugfsCleanup Os
  (gcvSTATUS_OK, Os)

/-! ## Reading the record of external calls -/

/-- The events recorded between the state `before` and the later state `after`. -/
def emitted (before after : gckOS) : List Event :=
  after.log.drop before.log.length

/-- The names of the failure messages among the events. -/
def printedNames : List Event → List String
  | [] => []
  | Event.print name :: es => name :: printedNames es
  | _ :: es => printedNames es

/-- The table indices of the constructor calls among the events. -/
def constructCalls : List Event → List Nat
  | [] => []
  | Event.construct i :: es => i :: constructCalls es
  | _ :: es => constructCalls es

/-- The names traced by the debug walk among the events. -/
def tracedNames : List Event → List String
  | [] => []
  | Event.traceZone name :: es => name :: tracedNames es
  | _ :: es => tracedNames es

/-- The destructor calls among the events: the function pointer called and its
argument. -/
def destructorCalls : List Event → List (Nat × gckALLOCATOR)
  | [] => []
  | Event.destructor fn a _ :: es => (fn, a) :: destructorCalls es
  | _ :: es => destructorCalls es

/-- The destructor calls among the events together with the entries that were
linked in the list when the call was made. -/
def destructorViews : List Event → List (gckALLOCATOR × List gckALLOCATOR)
  | [] => []
  | Event.destructor _ a linked :: es => (a, linked) :: destructorViews es
  | _ :: es => destructorViews es

/-- Whether the constructor of a table element is present and returned success. -/
def constructed (desc : gcsALLOCATOR_DESC) : Bool :=
  match desc.construct with
  | none => false
  | some (status, _) => !gcmIS_ERROR status

/-- Whether the constructor of a table element is present and returned an error. -/
def failed (desc : gcsALLOCATOR_DESC) : Bool :=
  match desc.construct with
  | none => false
  | some (status, _) => gcmIS_ERROR status

/-- The allocator a table element contributes to the list: the object its
constructor stored, when the constructor is present and returned success. -/
def produced (desc : gcsALLOCATOR_DESC) : Option gckALLOCATOR :=
  match desc.construct with
  | none => none
  | some (status, allocator) =>
    if gcmIS_ERROR status then none else some { allocator with name := desc.name }

/-- The events one pass of the loop body of `gckOS_ImportAllocators` records for
the element `allocatorArray[i]`. -/
def importBodyEvents (i : Nat) (desc : gcsALLOCATOR_DESC) : List Event :=
  match desc.construct with
  | none => []
  | some (status, _) =>
    if gcmIS_ERROR status then [Event.construct i, Event.print desc.name]
    else [Event.construct i]

/-- The events the loop of `gckOS_ImportAllocators` records from index `i` on. -/
def importEvents : List gcsALLOCATOR_DESC → Nat → List Event
  | [], _ => []
  | desc :: rest, i => importBodyEvents i desc ++ importEvents rest (i + 1)

/-- The events the loop of `gckOS_FreeAllocators` records for the entries of a
list: each destructor is called while only its followers are still linked. -/
def freeEvents : List gckALLOCATOR → List Event
  | [] => []
  | a :: rest => Event.destructor a.destructor a rest :: freeEvents rest

/-- The indices, counted from `i`, of the table elements that have a
constructor. -/
def constructIndices : List gcsALLOCATOR_DESC → Nat → List Nat
  | [], _ => []
  | desc :: rest, i =>
    if desc.construct.isSome then i :: constructIndices rest (i + 1)
    else constructIndices rest (i + 1)

/-- The relation between an entry of the list and the table element whose
constructor produced it: the object is the one the constructor stored, the
constructor returned no error, and the name is the name of the table element. -/
def ProducedBy (a : gckALLOCATOR) (desc : gcsALLOCATOR_DESC) : Prop :=
  a.name = desc.name ∧
  ∃ status stored, desc.construct = some (status, stored) ∧ gcmIS_ERROR status = false
    ∧ a.addr = stored.addr ∧ a.destructor = stored.destructor

/-- The table element with the name its constructor leaves in the object
replaced by `f` of that name; everything else is unchanged. -/
def withStoredName (f : String → String) (desc : gcsALLOCATOR_DESC) : gcsALLOCATOR_DESC :=
  { desc with construct :=
      desc.construct.map (fun r => (r.1, { r.2 with name := f r.2.name })) }

/-! ## Concrete registries and tables -/

/-- The table of the scenario: "contig" and "reserved" construct, "paged" fails
with a negative status.  The constructors leave other names in their objects. -/
def scenarioArray : List gcsALLOCATOR_DESC :=
  [ { name := "contig", construct := some (0, { addr := 4096, name := "", destructor := 11 }) },
    { name := "paged", construct := some (-13, { addr := 0, name := "", destructor := 0 }) },
    { name := "reserved",
      construct := some (0, { addr := 8192, name := "tmp", destructor := 12 }) } ]

/-- A state of the registry that still holds an entry from an earlier use. -/
def scenarioOs : gckOS :=
  { allocatorList := [{ addr := 64, name := "stale", destructor := 3 }],
    log := [Event.debugfsDirDeinit] }

/-- A registry with three live allocators, two of which share name and
destructor and differ only in their address. -/
def liveOs : gckOS :=
  { allocatorList :=
      [ { addr := 4096, name := "contig", destructor := 11 },
        { addr := 8192, name := "reserved", destructor := 12 },
        { addr := 12288, name := "reserved", destructor := 12 } ],
    log := [Event.debugfsDirInit "allocators", Event.construct 0] }

end GcHal

/-!
# The subsampler block of the i.MX8 display controller (dcss-ss.c)

A shallow embedding of drivers/gpu/imx/dcss/dcss-ss.c.  The driver object
`dcss_soc` becomes a record; the register writes, the writes queued to the
context loader and the error messages are recorded, in the order in which they
happen, in its field `log`.  Machine integers are natural numbers that are cut
to their width where the C code does so.
-/

namespace DcssSs

/-! ## Machine arithmetic -/

/-- The conversion of a value to `u32`. -/
def u32 (x : Nat) : Nat := x % 2 ^ 32

/-- The conversion of a value to `u16`. -/
def u16 (x : Nat) : Nat := x % 2 ^ 16

/-- Addition of two `u32` operands. -/
def add32 (a b : Nat) : Nat := (a + b) % 2 ^ 32

/-- Subtraction of two `u32` operands, with wrap-around. -/
def sub32 (a b : Nat) : Nat := (a % 2 ^ 32 + 2 ^ 32 - b % 2 ^ 32) % 2 ^ 32

/-- The shift `x << n` of a `u16` operand: the operand is promoted to `int`, and
the result is the 32-bit pattern of the `int` that comes out. -/
def shl_int (x n : Nat) : Nat := (x <<< n) % 2 ^ 32

/-- The conversion of an `int`, given by its 32-bit pattern, to `unsigned long`
(64 bits on the arm64 targets of the driver): a set sign bit is extended. -/
def int_to_ulong (x : Nat) : Nat := if 2 ^ 31 ≤ x then x + (2 ^ 64 - 2 ^ 32) else x

/-- Modelled from the spec: the macro `BIT(nr)` of linux/bitops.h (outside the
files embedded here), the bitfield constant `1UL << nr`. -/
def BIT (nr : Nat) : Nat := 1 <<< nr

/-- Modelled from the spec: the macro `GENMASK(h, l)` of linux/bitops.h (outside
the files embedded here), the bitfield constant with exactly the bits `l` to `h`
set. -/
def GENMASK (h l : Nat) : Nat := 2 ^ (h + 1) - 2 ^ l

/-! ## Register offsets and bitfields -/

/-- The register offset `DCSS_SS_SYS_CTRL`. -/
def DCSS_SS_SYS_CTRL : Nat := 0x00
/-- The bit `RUN_EN` of `DCSS_SS_SYS_CTRL`. -/
def RUN_EN : Nat := BIT 0
/-- The register offset `DCSS_SS_DISPLAY`. -/
def DCSS_SS_DISPLAY : Nat := 0x10
/-- The position `LRC_X_POS`. -/
def LRC_X_POS : Nat := 0
/-- The mask `LRC_X_MASK`. -/
def LRC_X_MASK : Nat := GENMASK 12 0
/-- The position `LRC_Y_POS`. -/
def LRC_Y_POS : Nat := 16
/-- The mask `LRC_Y_MASK`. -/
def LRC_Y_MASK : Nat := GENMASK 28 16
/-- The register offset `DCSS_SS_HSYNC`. -/
def DCSS_SS_HSYNC : Nat := 0x20
/-- The register offset `DCSS_SS_VSYNC`. -/
def DCSS_SS_VSYNC : Nat := 0x30
/-- The position `SYNC_START_POS`. -/
def SYNC_START_POS : Nat := 0
/-- The mask `SYNC_START_MASK`. -/
def SYNC_START_MASK : Nat := GENMASK 12 0
/-- The position `SYNC_END_POS`. -/
def SYNC_END_POS : Nat := 16
/-- The mask `SYNC_END_MASK`. -/
def SYNC_END_MASK : Nat := GENMASK 28 16
/-- The bit `SYNC_POL`. -/
def SYNC_POL : Nat := BIT 31
/-- The register offset `DCSS_SS_DE_ULC`. -/
def DCSS_SS_DE_ULC : Nat := 0x40
/-- The position `ULC_X_POS`. -/
def ULC_X_POS : Nat := 0
/-- The mask `ULC_X_MASK`. -/
def ULC_X_MASK : Nat := GENMASK 12 0
/-- The position `ULC_Y_POS`. -/
def ULC_Y_POS : Nat := 16
/-- The mask `ULC_Y_MASK`. -/
def ULC_Y_MASK : Nat := GENMASK 28 16
/-- The bit `ULC_POL`. -/
def ULC_POL : Nat := BIT 31
/-- The register offset `DCSS_SS_DE_LRC`. -/
def DCSS_SS_DE_LRC : Nat := 0x50
/-- The register offset `DCSS_SS_COEFF`. -/
def DCSS_SS_COEFF : Nat := 0x70
/-- The register offset `DCSS_SS_CLIP_CB`. -/
def DCSS_SS_CLIP_CB : Nat := 0x80
/-- The register offset `DCSS_SS_CLIP_CR`. -/
def DCSS_SS_CLIP_CR : Nat := 0x90

/-! ## Data model -/

/-- The object `struct dcss_ss_priv`, without the back pointer `dcss`.
`base_reg` is the address the register block is mapped at. -/
structure dcss_ss_priv where
  base_reg : Nat
  base_ofs : Nat
  ctx_id : Nat
  in_use : Bool
deriving DecidableEq, Repr

/-- One effect outside the file, as recorded in `dcss_soc.log`. -/
inductive HwEvent where
  /-- The call `dcss_writel(val, addr)`. -/
  | writel (val addr : Nat)
  /-- The call `dcss_ctxld_write(dcss, ctx_id, val, ofs)`. -/
  | ctxld_write (ctx_id val ofs : Nat)
  /-- The call `dev_err(dcss->dev, msg)`. -/
  | dev_err (msg : String)
deriving DecidableEq, Repr

/-- Modelled from the spec: the part of `struct dcss_soc` (declared in
dcss-prv.h, outside the files embedded here) the file works on: the pointer
`ss_priv`, which is `none` when null, and the record of the effects so far. -/
structure dcss_soc where
  ss_priv : Option dcss_ss_priv
  log : List HwEvent
deriving DecidableEq, Repr

/-- Modelled from the spec: the video-mode parameters, `struct videomode` of
include/video/videomode.h (outside the files embedded here): the members that
`dcss_ss_sync_set` reads, each of type `u32`. -/
structure videomode where
  hactive : Nat
  hfront_porch : Nat
  hback_porch : Nat
  hsync_len : Nat
  vactive : Nat
  vfront_porch : Nat
  vback_porch : Nat
  vsync_len : Nat
deriving DecidableEq, Repr

/-! ## The functions of dcss-ss.c -/

/-- The function `dcss_ss_write`; `USE_CTXLD` is defined at the top of the file.
The parameters `val` and `ofs` are of type `u32`. -/
def dcss_ss_write (ss : dcss_ss_priv) (val ofs : Nat) (log : List HwEvent) : List HwEvent :=
  let val := u32 val
  let ofs := u32 ofs
  let log := if !ss.in_use then log ++ [HwEvent.writel val (ss.base_reg + ofs)] else log
  log ++ [HwEvent.ctxld_write ss.ctx_id val (add32 ss.base_ofs ofs)]

/-- The function `dcss_ss_init`.  `CTX_SB_HP` (an enumerator of dcss-prv.h) and
`ENOMEM` (an error number) come from headers outside the file and are
parameters; `kzalloc` tells whether `devm_kzalloc` returns an object (which is
then zeroed), and `ioremap` is the address `devm_ioremap` returns, 0 for a null
pointer. -/
def dcss_ss_init (CTX_SB_HP : Nat) (ENOMEM : Int) (kzalloc : Bool) (ioremap : Nat)
    (dcss : dcss_soc) (ss_base : Nat) : Int × dcss_soc :=
  if !kzalloc then (-ENOMEM, dcss)
  else
    let ss : dcss_ss_priv := { base_reg := 0, base_ofs := 0, ctx_id := 0, in_use := false }
    let ss := { ss with base_reg := ioremap }
    if ss.base_reg = 0 then
      (-ENOMEM, { ss_priv := some ss,
                  log := dcss.log ++ [HwEvent.dev_err "ss: unable to remap ss base\n"] })
    else
      let ss := { ss with base_ofs := u32 ss_base }
      let ss := { ss with ctx_id := CTX_SB_HP }
      let log := dcss_ss_write ss 0x41614161 DCSS_SS_COEFF dcss.log
      let log := dcss_ss_write ss 0x03ff0000 DCSS_SS_CLIP_CB log
      let log := dcss_ss_write ss 0x03ff0000 DCSS_SS_CLIP_CR log
      (0, { ss_priv := some ss, log := log })

/-- The function `dcss_ss_exit`; the result is `none` when `dcss->ss_priv` is a
null pointer. -/
def dcss_ss_exit (dcss : dcss_soc) : Option dcss_soc :=
  match dcss.ss_priv with
  | none => none
  | some ss =>
    some { dcss with log := dcss.log ++ [HwEvent.writel 0 (ss.base_reg + DCSS_SS_SYS_CTRL)] }

/-- The local variable `lrc_x` of `dcss_ss_sync_set`. -/
def lrc_x (vm : videomode) : Nat :=
  u16 (sub32 (add32 (add32 (add32 vm.hfront_porch vm.hback_porch) vm.hsync_len) vm.hactive) 1)

/-- The local variable `lrc_y` of `dcss_ss_sync_set`. -/
def lrc_y (vm : videomode) : Nat :=
  u16 (sub32 (add32 (add32 (add32 vm.vfront_porch vm.vback_porch) vm.vsync_len) vm.vactive) 1)

/-- The local variable `hsync_start` of `dcss_ss_sync_set`. -/
def hsync_start (vm : videomode) : Nat :=
  u16 (sub32 (add32 (add32 (add32 vm.hfront_porch vm.hback_porch) vm.hsync_len) vm.hactive) 1)

/-- The local variable `hsync_end` of `dcss_ss_sync_set`. -/
def hsync_end (vm : videomode) : Nat := u16 (sub32 vm.hsync_len 1)

/-- The local variable `vsync_start` of `dcss_ss_sync_set`. -/
def vsync_start (vm : videomode) : Nat := u16 (sub32 vm.vfront_porch 1)

/-- The local variable `vsync_end` of `dcss_ss_sync_set`. -/
def vsync_end (vm : videomode) : Nat := u16 (sub32 (add32 vm.vfront_porch vm.vsync_len) 1)

/-- The local variable `de_ulc_x` of `dcss_ss_sync_set`. -/
def de_ulc_x (vm : videomode) : Nat := u16 (sub32 (add32 vm.hsync_len vm.hback_porch) 1)

/-- The local variable `de_ulc_y` of `dcss_ss_sync_set`. -/
def de_ulc_y (vm : videomode) : Nat :=
  u16 (add32 (add32 vm.vsync_len vm.vfront_porch) vm.vback_porch)

/-- The local variable `de_lrc_x` of `dcss_ss_sync_set`. -/
def de_lrc_x (vm : videomode) : Nat :=
  u16 (sub32 (add32 (add32 vm.hsync_len vm.hback_porch) vm.hactive) 1)

/-- The local variable `de_lrc_y` of `dcss_ss_sync_set`. -/
def de_lrc_y (vm : videomode) : Nat :=
  u16 (sub32 (add32 (add32 (add32 vm.vsync_len vm.vfront_porch) vm.vback_porch) vm.vactive) 1)

/-- The argument `(lrc_y << LRC_Y_POS) | lrc_x` of the write to `DCSS_SS_DISPLAY`. -/
def display_arg (vm : videomode) : Nat :=
  shl_int (lrc_y vm) LRC_Y_POS ||| lrc_x vm

/-- The argument `(phsync ? SYNC_POL : 0) | (hsync_end << SYNC_END_POS) | hsync_start`
of the write to `DCSS_SS_HSYNC`, computed in `unsigned long`. -/
def hsync_arg (vm : videomode) (phsync : Bool) : Nat :=
  (if phsync then SYNC_POL else 0) ||| int_to_ulong (shl_int (hsync_end vm) SYNC_END_POS)
    ||| hsync_start vm

/-- The argument `(pvsync ? SYNC_POL : 0) | (vsync_end << SYNC_END_POS) | vsync_start`
of the write to `DCSS_SS_VSYNC`, computed in `unsigned long`. -/
def vsync_arg (vm : videomode) (pvsync : Bool) : Nat :=
  (if pvsync then SYNC_POL else 0) ||| int_to_ulong (shl_int (vsync_end vm) SYNC_END_POS)
    ||| vsync_start vm

/-- The argument `SYNC_POL | (de_ulc_y << ULC_Y_POS) | de_ulc_x` of the write to
`DCSS_SS_DE_ULC`, computed in `unsigned long`. -/
def de_ulc_arg (vm : videomode) : Nat :=
  SYNC_POL ||| int_to_ulong (shl_int (de_ulc_y vm) ULC_Y_POS) ||| de_ulc_x vm

/-- The argument `(de_lrc_y << LRC_Y_POS) | de_lrc_x` of the write to
`DCSS_SS_DE_LRC`. -/
def de_lrc_arg (vm : videomode) : Nat :=
  shl_int (de_lrc_y vm) LRC_Y_POS ||| de_lrc_x vm

/-- The function `dcss_ss_sync_set`; the result is `none` when `dcss->ss_priv` is
a null pointer. -/
def dcss_ss_sync_set (dcss : dcss_soc) (vm : videomode) (phsync pvsync : Bool) :
    Option dcss_soc :=
  match dcss.ss_priv with
  | none => none
  | some ss =>
    let log := dcss_ss_write ss (display_arg vm) DCSS_SS_DISPLAY dcss.log
    let log := dcss_ss_write ss (hsync_arg vm phsync) DCSS_SS_HSYNC log
    let log := dcss_ss_write ss (vsync_arg vm pvsync) DCSS_SS_VSYNC log
    let log := dcss_ss_write ss (de_ulc_arg vm) DCSS_SS_DE_ULC log
    let log := dcss_ss_write ss (de_lrc_arg vm) DCSS_SS_DE_LRC log
    some { dcss with log := log }

/-- The function `dcss_ss_enable`; the result is `none` when `dcss->ss_priv` is a
null pointer. -/
def dcss_ss_enable (dcss : dcss_soc) (en : Bool) : Option dcss_soc :=
  match dcss.ss_priv with
  | none => none
  | some ss =>
    some { dcss with
      log := dcss_ss_write ss (if en then RUN_EN else 0) DCSS_SS_SYS_CTRL dcss.log }

/-! ## Sequences of calls and the record of effects -/

/-- One call of an operation of the file. -/
inductive Op where
  /-- A call of `dcss_ss_init` with the given outcomes of the two allocations. -/
  | ss_init (kzalloc : Bool) (ioremap : Nat) (ss_base : Nat)
  /-- A call of `dcss_ss_sync_set`. -/
  | ss_sync_set (vm : videomode) (phsync pvsync : Bool)
  /-- A call of `dcss_ss_enable`. -/
  | ss_enable (en : Bool)
  /-- A call of `dcss_ss_exit`. -/
  | ss_exit
deriving DecidableEq, Repr

/-- The effect of one call on the driver object. -/
def step (CTX_SB_HP : Nat) (ENOMEM : Int) (dcss : dcss_soc) : Op → Option dcss_soc
  | Op.ss_init kzalloc ioremap ss_base =>
    some (dcss_ss_init CTX_SB_HP ENOMEM kzalloc ioremap dcss ss_base).2
  | Op.ss_sync_set vm phsync pvsync => dcss_ss_sync_set dcss vm phsync pvsync
  | Op.ss_enable en => dcss_ss_enable dcss en
  | Op.ss_exit => dcss_ss_exit dcss

/-- The effect of a sequence of calls, made one after the other. -/
def run (CTX_SB_HP : Nat) (ENOMEM : Int) : List Op → dcss_soc → Option dcss_soc
  | [], dcss => some dcss
  | op :: ops, dcss =>
    match step CTX_SB_HP ENOMEM dcss op with
    | none => none
    | some dcss => run CTX_SB_HP ENOMEM ops dcss

/-- The writes queued to the context loader among the events: context id,
value and offset. -/
def ctxldWrites : List HwEvent → List (Nat × Nat × Nat)
  | [] => []
  | HwEvent.ctxld_write c v o :: es => (c, v, o) :: ctxldWrites es
  | _ :: es => ctxldWrites es

/-- The direct register writes among the events: value and address. -/
def directWrites : List HwEvent → List (Nat × Nat)
  | [] => []
  | HwEvent.writel v a :: es => (v, a) :: directWrites es
  | _ :: es => directWrites es

/-- Whether every write queued to the context loader comes right after a direct
register write of the same value; `prev` is the event before the list. -/
def bothWrites : Option HwEvent → List HwEvent → Bool
  | _, [] => true
  | prev, HwEvent.ctxld_write c v o :: es =>
    (match prev with
      | some (HwEvent.writel v2 _) => decide (v2 = v)
      | _ => false)
    && bothWrites (some (HwEvent.ctxld_write c v o)) es
  | _, e :: es => bothWrites (some e) es

/-- The events one call of `dcss_ss_write` records. -/
def writeEvents (ss : dcss_ss_priv) (val ofs : Nat) : List HwEvent :=
  (if ss.in_use then [] else [HwEvent.writel (u32 val) (ss.base_reg + u32 ofs)])
    ++ [HwEvent.ctxld_write ss.ctx_id (u32 val) (add32 ss.base_ofs (u32 ofs))]

/-- The events one call of `dcss_ss_sync_set` records. -/
def syncEvents (ss : dcss_ss_priv) (vm : videomode) (phsync pvsync : Bool) : List HwEvent :=
  writeEvents ss (display_arg vm) DCSS_SS_DISPLAY
    ++ writeEvents ss (hsync_arg vm phsync) DCSS_SS_HSYNC
    ++ writeEvents ss (vsync_arg vm pvsync) DCSS_SS_VSYNC
    ++ writeEvents ss (de_ulc_arg vm) DCSS_SS_DE_ULC
    ++ writeEvents ss (de_lrc_arg vm) DCSS_SS_DE_LRC

/-- The video mode 1920x1080 at 60 Hz. -/
def mode1080p : videomode :=
  { hactive := 1920, hfront_porch := 88, hback_porch := 148, hsync_len := 44,
    vactive := 1080, vfront_porch := 4, vback_porch := 36, vsync_len := 5 }

/-- A driver object after a successful `dcss_ss_init`. -/
def readySoc : dcss_soc :=
  (dcss_ss_init 1 12 true 0xffff0000 { ss_priv := none, log := [] } 0x32e20000).2

end DcssSs

namespace GcHal

/-! ## Auxiliary facts -/

theorem emitted_of_log_eq (before after : gckOS) (new : List Event)
    (h : after.log = before.log ++ new) : emitted before after = new := by
  simp [emitted, h]

theorem printedNames_append (xs ys : List Event) :
    printedNames (xs ++ ys) = printedNames xs ++ printedNames ys := by
  induction xs with
  | nil => rfl
  | cons e es ih => cases e <;> simp [printedNames, ih]

theorem constructCalls_append (xs ys : List Event) :
    constructCalls (xs ++ ys) = constructCalls xs ++ constructCalls ys := by
  induction xs with
  | nil => rfl
  | cons e es ih => cases e <;> simp [constructCalls, ih]

theorem tracedNames_append (xs ys : List Event) :
    tracedNames (xs ++ ys) = tracedNames xs ++ tracedNames ys := by
  induction xs with
  | nil => rfl
  | cons e es ih => cases e <;> simp [tracedNames, ih]

theorem destructorCalls_append (xs ys : List Event) :
    destructorCalls (xs ++ ys) = destructorCalls xs ++ destructorCalls ys := by
  induction xs with
  | nil => rfl
  | cons e es ih => cases e <;> simp [destructorCalls, ih]

theorem destructorViews_append (xs ys : List Event) :
    destructorViews (xs ++ ys) = destructorViews xs ++ destructorViews ys := by
  induction xs with
  | nil => rfl
  | cons e es ih => cases e <;> simp [destructorViews, ih]

/-! ### The construction loop -/

theorem importBody_allocatorList (i : Nat) (desc : gcsALLOCATOR_DESC) (Os : gckOS) :
    (importBody i desc Os).allocatorList = Os.allocatorList ++ (produced desc).toList := by
  unfold importBody produced
  rcases hc : desc.construct with _ | ⟨status, allocator⟩
  · simp
  · by_cases he : gcmIS_ERROR status = true
    · simp [he]
    · simp [he, list_add_tail]

theorem importBody_log (i : Nat) (desc : gcsALLOCATOR_DESC) (Os : gckOS) :
    (importBody i desc Os).log = Os.log ++ importBodyEvents i desc := by
  unfold importBody importBodyEvents
  rcases hc : desc.construct with _ | ⟨status, allocator⟩
  · simp
  · by_cases he : gcmIS_ERROR status = true
    · simp [he]
    · simp [he]

theorem importLoop_allocatorList (arr : List gcsALLOCATOR_DESC) (i : Nat) (Os : gckOS) :
    (importLoop arr i Os).allocatorList = Os.allocatorList ++ arr.filterMap produced := by
  induction arr generalizing i Os with
  | nil => simp [importLoop]
  | cons desc rest ih =>
    rw [importLoop, ih, importBody_allocatorList]
    cases hp : produced desc <;> simp [List.filterMap_cons, hp]

theorem importLoop_log (arr : List gcsALLOCATOR_DESC) (i : Nat) (Os : gckOS) :
    (importLoop arr i Os).log = Os.log ++ importEvents arr i := by
  induction arr generalizing i Os with
  | nil => simp [importLoop, importEvents]
  | cons desc rest ih =>
    rw [importLoop, ih, importBody_log, importEvents, List.append_assoc]

/-! ### The debug walk -/

theorem traceWalk_allocatorList (l : List gckALLOCATOR) (Os : gckOS) :
    (list_for_each_entry
      (fun allocator Os => { Os with log := Os.log ++ [Event.traceZone allocator.name] })
      l Os).allocatorList = Os.allocatorList := by
  induction l generalizing Os with
  | nil => rfl
  | cons a rest ih => rw [list_for_each_entry, ih]

theorem traceWalk_log (l : List gckALLOCATOR) (Os : gckOS) :
    (list_for_each_entry
      (fun allocator Os => { Os with log := Os.log ++ [Event.traceZone allocator.name] })
      l Os).log = Os.log ++ l.map (fun a => Event.traceZone a.name) := by
  induction l generalizing Os with
  | nil => simp [list_for_each_entry]
  | cons a rest ih => rw [list_for_each_entry, ih]; simp

theorem traceAllocators_allocatorList (Os : gckOS) :
    (traceAllocators Os).allocatorList = Os.allocatorList :=
  traceWalk_allocatorList Os.allocatorList Os

theorem traceAllocators_log (Os : gckOS) :
    (traceAllocators Os).log
      = Os.log ++ Os.allocatorList.map (fun a => Event.traceZone a.name) :=
  traceWalk_log Os.allocatorList Os

/-! ### The destruction loop -/

theorem freeWalk (l : List gckALLOCATOR) (Os : gckOS) (h : Os.allocatorList = l) :
    list_for_each_entry_safe freeBody l Os
      = { allocatorList := [], log := Os.log ++ freeEvents l } := by
  induction l generalizing Os with
  | nil =>
    cases Os
    simp_all [list_for_each_entry_safe, freeEvents]
  | cons a rest ih =>
    rw [list_for_each_entry_safe, ih]
    · simp [freeBody, freeEvents, list_del, h]
    · simp [freeBody, list_del, h]

theorem free_state (Os : gckOS) :
    (gckOS_FreeAllocators Os).2
      = { allocatorList := [],
          log := Os.log ++ (freeEvents Os.allocatorList ++ [Event.debugfsDirDeinit]) } := by
  simp [gckOS_FreeAllocators, freeWalk Os.allocatorList Os rfl, _AllocatorDebugfsCleanup]

theorem free_emitted (Os : gckOS) :
    emitted Os (gckOS_FreeAllocators Os).2
      = freeEvents Os.allocatorList ++ [Event.debugfsDirDeinit] :=
  emitted_of_log_eq _ _ _ (by rw [free_state])

theorem import_state (gcdDEBUG : Bool) (arr : List gcsALLOCATOR_DESC) (dirInit : gceSTATUS)
    (Os : gckOS) :
    (gckOS_ImportAllocators gcdDEBUG arr dirInit Os).2.allocatorList = arr.filterMap produced
    ∧ (gckOS_ImportAllocators gcdDEBUG arr dirInit Os).2.log
        = Os.log ++ (Event.debugfsDirInit "allocators" :: importEvents arr 0
            ++ (if gcdDEBUG then (arr.filterMap produced).map (fun a => Event.traceZone a.name)
                else [])) := by
  have hinit : ∀ s : gckOS, (_AllocatorDebugfsInit dirInit s).2
      = { s with log := s.log ++ [Event.debugfsDirInit "allocators"] } := by
    intro s
    unfold _AllocatorDebugfsInit
    by_cases he : gcmIS_ERROR dirInit = true <;> simp [he]
  cases gcdDEBUG
  · simp [gckOS_ImportAllocators, hinit, importLoop_allocatorList, importLoop_log,
      INIT_LIST_HEAD]
  · simp [gckOS_ImportAllocators, hinit, importLoop_allocatorList, importLoop_log,
      INIT_LIST_HEAD, traceAllocators_allocatorList, traceAllocators_log]

theorem printedNames_importEvents (arr : List gcsALLOCATOR_DESC) (i : Nat) :
    printedNames (importEvents arr i) = (arr.filter failed).map (fun d => d.name) := by
  induction arr generalizing i with
  | nil => rfl
  | cons desc rest ih =>
    rw [importEvents, printedNames_append, ih]
    unfold importBodyEvents failed
    rcases hc : desc.construct with _ | ⟨status, allocator⟩
    · simp [List.filter_cons, failed, hc, printedNames]
    · by_cases he : gcmIS_ERROR status = true
      · simp [List.filter_cons, failed, hc, he, printedNames]
      · simp [List.filter_cons, failed, hc, he, printedNames]

theorem constructCalls_importEvents (arr : List gcsALLOCATOR_DESC) (i : Nat) :
    constructCalls (importEvents arr i) = constructIndices arr i := by
  induction arr generalizing i with
  | nil => rfl
  | cons desc rest ih =>
    rw [importEvents, constructCalls_append, ih, constructIndices]
    unfold importBodyEvents
    rcases hc : desc.construct with _ | ⟨status, allocator⟩
    · simp [constructCalls]
    · by_cases he : gcmIS_ERROR status = true
      · simp [he, constructCalls]
      · simp [he, constructCalls]

theorem mem_constructIndices (arr : List gcsALLOCATOR_DESC) (i k : Nat)
    (desc : gcsALLOCATOR_DESC) (hk : arr[k]? = some desc)
    (hc : desc.construct.isSome = true) : i + k ∈ constructIndices arr i := by
  induction arr generalizing i k with
  | nil => simp at hk
  | cons d rest ih =>
    cases k with
    | zero =>
      simp at hk
      subst hk
      simp [constructIndices, hc]
    | succ k =>
      simp at hk
      have h := ih (i + 1) k hk
      have e : i + (k + 1) = i + 1 + k := by omega
      rw [e]
      unfold constructIndices
      split
      · exact List.mem_cons_of_mem _ h
      · exact h

theorem tracedNames_map (l : List gckALLOCATOR) :
    tracedNames (l.map (fun a => Event.traceZone a.name)) = l.map (fun a => a.name) := by
  induction l with
  | nil => rfl
  | cons a rest ih => simp [tracedNames, ih]

theorem tracedNames_importEvents (arr : List gcsALLOCATOR_DESC) (i : Nat) :
    tracedNames (importEvents arr i) = [] := by
  induction arr generalizing i with
  | nil => rfl
  | cons desc rest ih =>
    rw [importEvents, tracedNames_append, ih]
    unfold importBodyEvents
    rcases hc : desc.construct with _ | ⟨status, allocator⟩
    · simp [tracedNames]
    · by_cases he : gcmIS_ERROR status = true
      · simp [he, tracedNames]
      · simp [he, tracedNames]

theorem produced_names (arr : List gcsALLOCATOR_DESC) :
    (arr.filterMap produced).map (fun a => a.name)
      = (arr.filter constructed).map (fun d => d.name) := by
  induction arr with
  | nil => rfl
  | cons desc rest ih =>
    unfold produced constructed at *
    rcases hc : desc.construct with _ | ⟨status, allocator⟩
    · simpa [List.filterMap_cons, List.filter_cons, hc] using ih
    · by_cases he : gcmIS_ERROR status = true
      · simpa [List.filterMap_cons, List.filter_cons, hc, he] using ih
      · simpa [List.filterMap_cons, List.filter_cons, hc, he] using ih

theorem produced_length (arr : List gcsALLOCATOR_DESC) :
    (arr.filterMap produced).length = (arr.filter constructed).length := by
  have h := congrArg List.length (produced_names arr)
  simpa using h

theorem produced_forall2 (arr : List gcsALLOCATOR_DESC) :
    List.Forall₂ ProducedBy (arr.filterMap produced) (arr.filter constructed) := by
  induction arr with
  | nil => exact List.Forall₂.nil
  | cons desc rest ih =>
    rcases hc : desc.construct with _ | ⟨status, allocator⟩
    · simpa [List.filterMap_cons, List.filter_cons, produced, constructed, hc] using ih
    · by_cases he : gcmIS_ERROR status = true
      · simpa [List.filterMap_cons, List.filter_cons, produced, constructed, hc, he] using ih
      · simp only [List.filterMap_cons, List.filter_cons, produced, constructed, hc, he]
        simp only [Bool.not_eq_true] at he
        simp only [he, Bool.not_false, if_true, Bool.false_eq_true, if_false]
        exact List.Forall₂.cons ⟨rfl, status, allocator, hc, he, rfl, rfl⟩ ih

/-! ## Initialize -/

/-- C1: after `gckOS_ImportAllocators` the allocator list holds exactly the
allocators produced by the table entries whose constructor returned success,
one per such entry and in table order; entries whose constructor failed (or is
absent) contribute nothing.  This holds for every table, every outcome of the
constructors, every build switch, every directory status and every prior
state. -/
theorem import_list_exact (gcdDEBUG : Bool) (arr : List gcsALLOCATOR_DESC)
    (dirInit : gceSTATUS) (Os : gckOS) :
    (gckOS_ImportAllocators gcdDEBUG arr dirInit Os).2.allocatorList
        = arr.filterMap produced
    ∧ (gckOS_ImportAllocators gcdDEBUG arr dirInit Os).2.allocatorList.length
        = (arr.filter constructed).length
    ∧ List.Forall₂ (fun a desc => ∃ status stored, desc.construct = some (status, stored)
          ∧ gcmIS_ERROR status = false ∧ a.addr = stored.addr)
        (gckOS_ImportAllocators gcdDEBUG arr dirInit Os).2.allocatorList
        (arr.filter constructed) := by
  rw [(import_state gcdDEBUG arr dirInit Os).1]
  refine ⟨rfl, produced_length arr, ?_⟩
  refine List.Forall₂.imp ?_ (produced_forall2 arr)
  rintro a desc ⟨_, status, stored, h1, h2, h3, _⟩
  exact ⟨status, stored, h1, h2, h3⟩

/-- C1, the scenario: the table [(contig, ok), (paged, fail), (reserved, ok)]
yields the list [contig, reserved]. -/
theorem import_list_exact_scenario :
    (gckOS_ImportAllocators true scenarioArray 0 scenarioOs).2.allocatorList
      = [ { addr := 4096, name := "contig", destructor := 11 },
          { addr := 8192, name := "reserved", destructor := 12 } ] :=
  (import_list_exact true scenarioArray 0 scenarioOs).1.trans (by decide)

/-- C2: evaluation of the code where the claim fails.  When the creation of the
top-level directory fails, `_AllocatorDebugfsInit` hands the error status back,
yet `gckOS_ImportAllocators` returns `gcvSTATUS_OK`, which is not an error
status; in fact it returns `gcvSTATUS_OK` on every input. -/
theorem import_drops_directory_failure :
    gcmIS_ERROR (_AllocatorDebugfsInit (-13) scenarioOs).1 = true
    ∧ (gckOS_ImportAllocators false scenarioArray (-13) scenarioOs).1 = gcvSTATUS_OK
    ∧ gcmIS_ERROR (gckOS_ImportAllocators false scenarioArray (-13) scenarioOs).1 = false
    ∧ ∀ (gcdDEBUG : Bool) (arr : List gcsALLOCATOR_DESC) (dirInit : gceSTATUS) (Os : gckOS),
        (gckOS_ImportAllocators gcdDEBUG arr dirInit Os).1 = gcvSTATUS_OK :=
  ⟨by decide, by decide, by decide, fun _ _ _ _ => rfl⟩

/-- C3: when the top-level directory is created and every constructor of the
table fails (in particular when the table is empty), `gckOS_ImportAllocators`
returns `gcvSTATUS_OK` and leaves the allocator list empty. -/
theorem import_all_fail (gcdDEBUG : Bool) (arr : List gcsALLOCATOR_DESC)
    (dirInit : gceSTATUS) (Os : gckOS)
    (hdir : gcmIS_ERROR dirInit = false)
    (hfail : ∀ desc ∈ arr, ∀ status stored,
      desc.construct = some (status, stored) → gcmIS_ERROR status = true) :
    (_AllocatorDebugfsInit dirInit Os).1 = gcvSTATUS_OK
    ∧ (gckOS_ImportAllocators gcdDEBUG arr dirInit Os).1 = gcvSTATUS_OK
    ∧ (gckOS_ImportAllocators gcdDEBUG arr dirInit Os).2.allocatorList = [] := by
  refine ⟨by simp [_AllocatorDebugfsInit, hdir], rfl, ?_⟩
  rw [(import_state gcdDEBUG arr dirInit Os).1, List.filterMap_eq_nil_iff]
  intro desc hmem
  unfold produced
  rcases hc : desc.construct with _ | ⟨status, stored⟩
  · rfl
  · simp [hfail desc hmem status stored hc]

/-- C3, witnesses: a table whose two constructors both fail, and the empty
table, each on a registry that still holds an entry. -/
theorem import_all_fail_witness :
    ((gckOS_ImportAllocators true
        [ { name := "contig", construct := some (-3, { addr := 0, name := "", destructor := 0 }) },
          { name := "paged", construct := some (-13, { addr := 0, name := "", destructor := 0 }) } ]
        0 scenarioOs).1 = gcvSTATUS_OK
      ∧ (gckOS_ImportAllocators true
        [ { name := "contig", construct := some (-3, { addr := 0, name := "", destructor := 0 }) },
          { name := "paged", construct := some (-13, { addr := 0, name := "", destructor := 0 }) } ]
        0 scenarioOs).2.allocatorList = [])
    ∧ ((gckOS_ImportAllocators true [] 0 scenarioOs).1 = gcvSTATUS_OK
      ∧ (gckOS_ImportAllocators true [] 0 scenarioOs).2.allocatorList = []) :=
  ⟨(import_all_fail true _ 0 scenarioOs (by decide)
      (by
        intro desc hmem status stored hc
        simp only [List.mem_cons, List.mem_singleton, List.not_mem_nil, or_false] at hmem
        rcases hmem with rfl | rfl
        · simp only [Option.some.injEq, Prod.mk.injEq] at hc
          rw [← hc.1]
          decide
        · simp only [Option.some.injEq, Prod.mk.injEq] at hc
          rw [← hc.1]
          decide)).2,
   (import_all_fail true [] 0 scenarioOs (by decide) (by simp)).2⟩

theorem produced_withStoredName (f : String → String) (desc : gcsALLOCATOR_DESC) :
    produced (withStoredName f desc) = produced desc := by
  unfold produced withStoredName
  rcases hc : desc.construct with _ | ⟨status, stored⟩
  · simp
  · by_cases he : gcmIS_ERROR status = true <;> simp [he]

theorem printedNames_traces (l : List gckALLOCATOR) :
    printedNames (l.map (fun a => Event.traceZone a.name)) = [] := by
  induction l with
  | nil => rfl
  | cons a rest ih => simp [printedNames, ih]

theorem constructCalls_traces (l : List gckALLOCATOR) :
    constructCalls (l.map (fun a => Event.traceZone a.name)) = [] := by
  induction l with
  | nil => rfl
  | cons a rest ih => simp [constructCalls, ih]

theorem import_emitted (gcdDEBUG : Bool) (arr : List gcsALLOCATOR_DESC) (dirInit : gceSTATUS)
    (Os : gckOS) :
    emitted Os (gckOS_ImportAllocators gcdDEBUG arr dirInit Os).2
      = Event.debugfsDirInit "allocators" :: importEvents arr 0
          ++ (if gcdDEBUG then (arr.filterMap produced).map (fun a => Event.traceZone a.name)
              else []) :=
  emitted_of_log_eq _ _ _ (import_state gcdDEBUG arr dirInit Os).2

/-- C6: every allocator in the list after `gckOS_ImportAllocators` carries the
name of the table entry whose constructor produced it: the list and the
sub-table of the entries that constructed correspond one to one, in order, and
the names agree; the names the constructors left in their objects play no
part, since replacing them by anything else gives the same list. -/
theorem import_names_from_table (gcdDEBUG : Bool) (arr : List gcsALLOCATOR_DESC)
    (dirInit : gceSTATUS) (Os : gckOS) :
    List.Forall₂ ProducedBy
        (gckOS_ImportAllocators gcdDEBUG arr dirInit Os).2.allocatorList
        (arr.filter constructed)
    ∧ (gckOS_ImportAllocators gcdDEBUG arr dirInit Os).2.allocatorList.map (fun a => a.name)
        = (arr.filter constructed).map (fun d => d.name)
    ∧ ∀ f : String → String,
        (gckOS_ImportAllocators gcdDEBUG (arr.map (withStoredName f)) dirInit Os).2.allocatorList
          = (gckOS_ImportAllocators gcdDEBUG arr dirInit Os).2.allocatorList := by
  refine ⟨?_, ?_, ?_⟩
  · rw [(import_state gcdDEBUG arr dirInit Os).1]
    exact produced_forall2 arr
  · rw [(import_state gcdDEBUG arr dirInit Os).1]
    exact produced_names arr
  · intro f
    rw [(import_state gcdDEBUG arr dirInit Os).1, (import_state gcdDEBUG _ dirInit Os).1,
      List.filterMap_map]
    congr 1
    funext desc
    exact produced_withStoredName f desc

/-- C6, the scenario: the constructor of "reserved" left the name "tmp" in its
object, and the list holds the names of the table. -/
theorem import_names_from_table_scenario :
    (gckOS_ImportAllocators false scenarioArray 0 scenarioOs).2.allocatorList.map
        (fun a => a.name)
      = ["contig", "reserved"] :=
  (import_names_from_table false scenarioArray 0 scenarioOs).2.1.trans (by decide)

/-- C8: `gckOS_ImportAllocators` prints one failure message for each table entry
whose constructor returned an error, with the name of that entry, and none for
the others: the printed names are the names of the failed entries in table
order.  A failure does not end the loop: the constructor calls made are those of
all the entries that have a constructor, each once and in table order. -/
theorem import_failure_messages (gcdDEBUG : Bool) (arr : List gcsALLOCATOR_DESC)
    (dirInit : gceSTATUS) (Os : gckOS) :
    printedNames (emitted Os (gckOS_ImportAllocators gcdDEBUG arr dirInit Os).2)
        = (arr.filter failed).map (fun d => d.name)
    ∧ constructCalls (emitted Os (gckOS_ImportAllocators gcdDEBUG arr dirInit Os).2)
        = constructIndices arr 0
    ∧ ∀ (k : Nat) (desc : gcsALLOCATOR_DESC), arr[k]? = some desc →
        desc.construct.isSome = true →
        k ∈ constructCalls (emitted Os (gckOS_ImportAllocators gcdDEBUG arr dirInit Os).2) := by
  have hp : printedNames (emitted Os (gckOS_ImportAllocators gcdDEBUG arr dirInit Os).2)
      = (arr.filter failed).map (fun d => d.name) := by
    rw [import_emitted]
    cases gcdDEBUG <;>
      simp [printedNames, printedNames_append, printedNames_importEvents, printedNames_traces]
  have hc : constructCalls (emitted Os (gckOS_ImportAllocators gcdDEBUG arr dirInit Os).2)
      = constructIndices arr 0 := by
    rw [import_emitted]
    cases gcdDEBUG <;>
      simp [constructCalls, constructCalls_append, constructCalls_importEvents,
        constructCalls_traces]
  refine ⟨hp, hc, ?_⟩
  intro k desc hk hsome
  rw [hc]
  simpa using mem_constructIndices arr 0 k desc hk hsome

/-- C8, the scenario: for [(contig, ok), (paged, fail), (reserved, ok)] only
"paged" is printed, and all three constructors are called. -/
theorem import_failure_messages_scenario :
    printedNames (emitted scenarioOs (gckOS_ImportAllocators true scenarioArray 0 scenarioOs).2)
        = ["paged"]
    ∧ constructCalls
        (emitted scenarioOs (gckOS_ImportAllocators true scenarioArray 0 scenarioOs).2)
        = [0, 1, 2] :=
  ⟨(import_failure_messages true scenarioArray 0 scenarioOs).1.trans (by decide),
   (import_failure_messages true scenarioArray 0 scenarioOs).2.1.trans (by decide)⟩

/-- C9: the walk over the allocator list visits the entries from the first to the
last, which after `gckOS_ImportAllocators` is the order of construction, and
leaves the list as it is; a second walk made right after the first one visits
the same sequence. -/
theorem trace_walk_repeatable (Os : gckOS) :
    (traceAllocators Os).allocatorList = Os.allocatorList
    ∧ emitted Os (traceAllocators Os)
        = Os.allocatorList.map (fun a => Event.traceZone a.name)
    ∧ emitted (traceAllocators Os) (traceAllocators (traceAllocators Os))
        = emitted Os (traceAllocators Os)
    ∧ list_for_each_entry (fun pos visited => visited ++ [pos]) Os.allocatorList []
        = Os.allocatorList
    ∧ ∀ (arr : List gcsALLOCATOR_DESC) (dirInit : gceSTATUS),
        tracedNames (emitted Os (gckOS_ImportAllocators true arr dirInit Os).2)
          = (arr.filter constructed).map (fun d => d.name) := by
  have h1 : ∀ s : gckOS, emitted s (traceAllocators s)
      = s.allocatorList.map (fun a => Event.traceZone a.name) :=
    fun s => emitted_of_log_eq _ _ _ (traceAllocators_log s)
  have hvisit : ∀ (l acc : List gckALLOCATOR),
      list_for_each_entry (fun pos visited => visited ++ [pos]) l acc = acc ++ l := by
    intro l
    induction l with
    | nil => intro acc; simp [list_for_each_entry]
    | cons a rest ih => intro acc; rw [list_for_each_entry, ih]; simp
  refine ⟨traceAllocators_allocatorList Os, h1 Os, ?_, ?_, ?_⟩
  · rw [h1, h1, traceAllocators_allocatorList]
  · simpa using hvisit Os.allocatorList []
  · intro arr dirInit
    rw [import_emitted]
    simp [tracedNames, tracedNames_append, tracedNames_importEvents, tracedNames_map,
      produced_names]

/-- C9, the scenario: the walk at the end of `gckOS_ImportAllocators` traces
"contig" and then "reserved", and a further walk records the same events. -/
theorem trace_walk_repeatable_scenario :
    tracedNames (emitted scenarioOs (gckOS_ImportAllocators true scenarioArray 0 scenarioOs).2)
        = ["contig", "reserved"]
    ∧ emitted liveOs (traceAllocators liveOs)
        = [Event.traceZone "contig", Event.traceZone "reserved", Event.traceZone "reserved"] :=
  ⟨((trace_walk_repeatable scenarioOs).2.2.2.2 scenarioArray 0).trans (by decide),
   (trace_walk_repeatable liveOs).2.1.trans (by decide)⟩

/-! ## Teardown -/

theorem destructorCalls_freeEvents (l : List gckALLOCATOR) :
    destructorCalls (freeEvents l) = l.map (fun a => (a.destructor, a)) := by
  induction l with
  | nil => rfl
  | cons a rest ih => simp [freeEvents, destructorCalls, ih]

theorem destructorViews_freeEvents_length (l : List gckALLOCATOR) :
    (destructorViews (freeEvents l)).length = l.length := by
  induction l with
  | nil => rfl
  | cons a rest ih => simp [freeEvents, destructorViews, ih]

theorem destructorViews_freeEvents_get (l : List gckALLOCATOR) (k : Nat) (a : gckALLOCATOR)
    (h : l[k]? = some a) :
    (destructorViews (freeEvents l))[k]? = some (a, l.drop (k + 1)) := by
  induction l generalizing k with
  | nil => simp at h
  | cons b rest ih =>
    cases k with
    | zero =>
      simp at h
      simp [freeEvents, destructorViews, h]
    | succ k =>
      simp at h
      simpa [freeEvents, destructorViews] using ih k h

theorem destructorViews_freeEvents_drop (l : List gckALLOCATOR) (k : Nat) :
    (destructorViews (freeEvents l)).drop k = destructorViews (freeEvents (l.drop k)) := by
  induction l generalizing k with
  | nil => simp [freeEvents, destructorViews]
  | cons b rest ih =>
    cases k with
    | zero => simp
    | succ k => simpa [freeEvents, destructorViews] using ih k

theorem destructorViews_freeEvents_not_mem (l : List gckALLOCATOR) (h : l.Nodup)
    (a : gckALLOCATOR) (linked : List gckALLOCATOR)
    (hm : (a, linked) ∈ destructorViews (freeEvents l)) : a ∉ linked := by
  induction l with
  | nil => simp [freeEvents, destructorViews] at hm
  | cons b rest ih =>
    rw [List.nodup_cons] at h
    simp only [freeEvents, destructorViews, List.mem_cons, Prod.mk.injEq] at hm
    rcases hm with ⟨rfl, rfl⟩ | hm
    · exact h.1
    · exact ih h.2 hm

theorem deinit_not_mem_freeEvents (l : List gckALLOCATOR) :
    Event.debugfsDirDeinit ∉ freeEvents l := by
  induction l with
  | nil => simp [freeEvents]
  | cons a rest ih => simp [freeEvents, ih]

theorem split_at_last {α : Type} (d : α) (F pre post : List α) (hd : d ∉ F)
    (h : F ++ [d] = pre ++ d :: post) : pre = F ∧ post = [] := by
  induction F generalizing pre with
  | nil =>
    cases pre with
    | nil => simpa using h.symm
    | cons p ps =>
      simp at h
  | cons f fs ih =>
    cases pre with
    | nil =>
      simp at h
      exact absurd (h.1 ▸ List.mem_cons_self _ _) hd
    | cons p ps =>
      simp only [List.cons_append, List.cons.injEq] at h
      have hd2 : d ∉ fs := fun hm => hd (List.mem_cons_of_mem _ hm)
      obtain ⟨h1, h2⟩ := ih ps hd2 h.2
      exact ⟨by rw [h.1, h1], h2⟩

theorem countP_arg_calls (l : List gckALLOCATOR) (a : gckALLOCATOR) :
    List.countP (fun c => decide (c.2 = a)) (l.map (fun b => (b.destructor, b)))
      = l.count a := by
  induction l with
  | nil => rfl
  | cons b rest ih =>
    simp only [List.map_cons, List.countP_cons, ih, List.count_cons]
    by_cases hb : b = a <;> simp [hb]

theorem free_destructorCalls (Os : gckOS) :
    destructorCalls (emitted Os (gckOS_FreeAllocators Os).2)
      = Os.allocatorList.map (fun a => (a.destructor, a)) := by
  rw [free_emitted, destructorCalls_append, destructorCalls_freeEvents]
  simp [destructorCalls]

/-- C4: for a well-formed allocator list (no entry linked twice), after
`gckOS_FreeAllocators` the list is empty, exactly one destructor call has been
made with each former entry as its argument, and every destructor call that has
been made is the call of the destructor of a former entry on that entry. -/
theorem free_destroys_each_once (Os : gckOS) (hwf : Os.allocatorList.Nodup) :
    (gckOS_FreeAllocators Os).2.allocatorList = []
    ∧ (∀ a ∈ Os.allocatorList,
        List.countP (fun c => decide (c.2 = a))
          (destructorCalls (emitted Os (gckOS_FreeAllocators Os).2)) = 1)
    ∧ (∀ c ∈ destructorCalls (emitted Os (gckOS_FreeAllocators Os).2),
        c.2 ∈ Os.allocatorList ∧ c.1 = c.2.destructor)
    ∧ (destructorCalls (emitted Os (gckOS_FreeAllocators Os).2)).length
        = Os.allocatorList.length := by
  rw [free_destructorCalls]
  refine ⟨by rw [free_state], ?_, ?_, by simp⟩
  · intro a ha
    rw [countP_arg_calls]
    exact List.count_eq_one_of_mem hwf ha
  · intro c hc
    simp only [List.mem_map] at hc
    obtain ⟨b, hb, rfl⟩ := hc
    exact ⟨hb, rfl⟩

/-- C4, witness: the registry with three live allocators. -/
theorem free_destroys_each_once_witness :
    liveOs.allocatorList.Nodup
    ∧ (gckOS_FreeAllocators liveOs).2.allocatorList = []
    ∧ (destructorCalls (emitted liveOs (gckOS_FreeAllocators liveOs).2)).length = 3 :=
  ⟨by decide, (free_destroys_each_once liveOs (by decide)).1,
   (free_destroys_each_once liveOs (by decide)).2.2.2⟩

theorem free_twice_emitted (Os : gckOS) :
    emitted Os (gckOS_FreeAllocators (gckOS_FreeAllocators Os).2).2
      = freeEvents Os.allocatorList ++ [Event.debugfsDirDeinit, Event.debugfsDirDeinit] := by
  apply emitted_of_log_eq
  rw [free_state, free_state]
  simp [freeEvents]

/-- C5: when `gckOS_FreeAllocators` is called twice in a row, the second call
returns `gcvSTATUS_OK` and calls no destructor; the list is empty after each of
the two calls, and over both calls together exactly one destructor call has
been made with each former entry as its argument. -/
theorem free_twice (Os : gckOS) (hwf : Os.allocatorList.Nodup) :
    (gckOS_FreeAllocators Os).1 = gcvSTATUS_OK
    ∧ (gckOS_FreeAllocators (gckOS_FreeAllocators Os).2).1 = gcvSTATUS_OK
    ∧ destructorCalls
        (emitted (gckOS_FreeAllocators Os).2
          (gckOS_FreeAllocators (gckOS_FreeAllocators Os).2).2) = []
    ∧ (gckOS_FreeAllocators Os).2.allocatorList = []
    ∧ (gckOS_FreeAllocators (gckOS_FreeAllocators Os).2).2.allocatorList = []
    ∧ ∀ a ∈ Os.allocatorList,
        List.countP (fun c => decide (c.2 = a))
          (destructorCalls
            (emitted Os (gckOS_FreeAllocators (gckOS_FreeAllocators Os).2).2)) = 1 := by
  refine ⟨rfl, rfl, ?_, by rw [free_state], by rw [free_state], ?_⟩
  · rw [free_destructorCalls, free_state]
    rfl
  · intro a ha
    rw [free_twice_emitted, destructorCalls_append, destructorCalls_freeEvents]
    simp only [destructorCalls, List.append_nil]
    rw [countP_arg_calls]
    exact List.count_eq_one_of_mem hwf ha

/-- C5, witness: two calls in a row on the registry with three live
allocators. -/
theorem free_twice_witness :
    liveOs.allocatorList.Nodup
    ∧ (gckOS_FreeAllocators (gckOS_FreeAllocators liveOs).2).1 = gcvSTATUS_OK
    ∧ destructorCalls
        (emitted (gckOS_FreeAllocators liveOs).2
          (gckOS_FreeAllocators (gckOS_FreeAllocators liveOs).2).2) = [] :=
  ⟨by decide, (free_twice liveOs (by decide)).2.1, (free_twice liveOs (by decide)).2.2.1⟩

theorem free_destructorViews (Os : gckOS) :
    destructorViews (emitted Os (gckOS_FreeAllocators Os).2)
      = destructorViews (freeEvents Os.allocatorList) := by
  rw [free_emitted, destructorViews_append]
  simp [destructorViews]

/-- C7: in `gckOS_FreeAllocators` every entry is unlinked before its destructor
is called.  For a well-formed list (no entry linked twice) the destructor call
number `k` has the entry number `k` as its argument and finds linked exactly
the entries that followed it in the original list; the argument is not among
them.  What is done after that call is the teardown of those followers alone:
the later destructor calls are the ones `gckOS_FreeAllocators` makes on a
registry that holds just the followers. -/
theorem free_unlinks_before_destructor (Os : gckOS) (hwf : Os.allocatorList.Nodup) :
    (destructorViews (emitted Os (gckOS_FreeAllocators Os).2)).length
        = Os.allocatorList.length
    ∧ (∀ (k : Nat) (a : gckALLOCATOR), Os.allocatorList[k]? = some a →
        (destructorViews (emitted Os (gckOS_FreeAllocators Os).2))[k]?
          = some (a, Os.allocatorList.drop (k + 1)))
    ∧ (∀ (a : gckALLOCATOR) (linked : List gckALLOCATOR),
        (a, linked) ∈ destructorViews (emitted Os (gckOS_FreeAllocators Os).2) →
        a ∉ linked)
    ∧ ∀ (k : Nat) (log : List Event),
        (destructorViews (emitted Os (gckOS_FreeAllocators Os).2)).drop (k + 1)
          = destructorViews
              (emitted { allocatorList := Os.allocatorList.drop (k + 1), log := log }
                (gckOS_FreeAllocators
                  { allocatorList := Os.allocatorList.drop (k + 1), log := log }).2) := by
  rw [free_destructorViews]
  refine ⟨destructorViews_freeEvents_length _, ?_, ?_, ?_⟩
  · intro k a h
    exact destructorViews_freeEvents_get _ k a h
  · intro a linked hm
    exact destructorViews_freeEvents_not_mem _ hwf a linked hm
  · intro k log
    rw [free_destructorViews, destructorViews_freeEvents_drop]

/-- C7, witness: on the registry with three live allocators the destructor of
the first entry finds the two others linked, and the destructor of the second
finds only the third. -/
theorem free_unlinks_before_destructor_witness :
    liveOs.allocatorList.Nodup
    ∧ (destructorViews (emitted liveOs (gckOS_FreeAllocators liveOs).2))[1]?
        = some ({ addr := 8192, name := "reserved", destructor := 12 },
                [{ addr := 12288, name := "reserved", destructor := 12 }]) :=
  ⟨by decide,
   ((free_unlinks_before_destructor liveOs (by decide)).2.1 1
      { addr := 8192, name := "reserved", destructor := 12 } (by decide)).trans (by decide)⟩

/-- C10: one call of `gckOS_FreeAllocators` tears the allocator directory down
exactly once, as the last thing it does: wherever the record of the call is
split at a directory cleanup, nothing follows the cleanup, in particular no
destructor call, and all the destructor calls of the call, one for every entry
of the list, come before it. -/
theorem free_cleanup_after_destructors (Os : gckOS) :
    (emitted Os (gckOS_FreeAllocators Os).2).count Event.debugfsDirDeinit = 1
    ∧ (emitted Os (gckOS_FreeAllocators Os).2).getLast? = some Event.debugfsDirDeinit
    ∧ ∀ pre post : List Event,
        emitted Os (gckOS_FreeAllocators Os).2 = pre ++ Event.debugfsDirDeinit :: post →
        post = [] ∧ destructorCalls post = []
        ∧ destructorCalls pre = destructorCalls (emitted Os (gckOS_FreeAllocators Os).2)
        ∧ (destructorCalls pre).length = Os.allocatorList.length := by
  rw [free_emitted]
  refine ⟨?_, by simp, ?_⟩
  · rw [List.count_append, List.count_eq_zero_of_not_mem (deinit_not_mem_freeEvents _)]
    simp
  · intro pre post h
    obtain ⟨h1, h2⟩ := split_at_last _ _ pre post (deinit_not_mem_freeEvents _) h
    subst h1 h2
    refine ⟨rfl, rfl, ?_, ?_⟩
    · rw [destructorCalls_append]
      simp [destructorCalls]
    · rw [destructorCalls_freeEvents]
      simp

/-- C10, witness: on the registry with three live allocators the record of the
call ends with the single directory cleanup. -/
theorem free_cleanup_after_destructors_witness :
    (emitted liveOs (gckOS_FreeAllocators liveOs).2).count Event.debugfsDirDeinit = 1
    ∧ (emitted liveOs (gckOS_FreeAllocators liveOs).2).getLast? = some Event.debugfsDirDeinit :=
  ⟨(free_cleanup_after_destructors liveOs).1, (free_cleanup_after_destructors liveOs).2.1⟩

/-! ## Bounds, order and frame of the two operations -/

theorem constructIndices_bounds (arr : List gcsALLOCATOR_DESC) (i k : Nat)
    (hk : k ∈ constructIndices arr i) : i ≤ k ∧ k < i + arr.length := by
  induction arr generalizing i with
  | nil => simp [constructIndices] at hk
  | cons desc rest ih =>
    unfold constructIndices at hk
    split at hk
    · rcases List.mem_cons.mp hk with rfl | hk
      · simp
      · have := ih (i + 1) hk
        simp only [List.length_cons]
        omega
    · have := ih (i + 1) hk
      simp only [List.length_cons]
      omega

theorem constructIndices_length (arr : List gcsALLOCATOR_DESC) (i : Nat) :
    (constructIndices arr i).length ≤ arr.length := by
  induction arr generalizing i with
  | nil => simp [constructIndices]
  | cons desc rest ih =>
    unfold constructIndices
    split
    · simpa using ih (i + 1)
    · exact Nat.le_succ_of_le (ih (i + 1))

theorem constructIndices_nodup (arr : List gcsALLOCATOR_DESC) (i : Nat) :
    (constructIndices arr i).Nodup := by
  induction arr generalizing i with
  | nil => simp [constructIndices]
  | cons desc rest ih =>
    unfold constructIndices
    split
    · refine List.nodup_cons.mpr ⟨?_, ih (i + 1)⟩
      intro hmem
      have := (constructIndices_bounds rest (i + 1) i hmem).1
      omega
    · exact ih (i + 1)

theorem constructIndices_append (pre post : List gcsALLOCATOR_DESC) (i : Nat) :
    constructIndices (pre ++ post) i
      = constructIndices pre i ++ constructIndices post (i + pre.length) := by
  induction pre generalizing i with
  | nil => simp [constructIndices]
  | cons desc rest ih =>
    have e : i + 1 + rest.length = i + (rest.length + 1) := by omega
    have h := ih (i + 1)
    rw [e] at h
    simp only [List.cons_append, constructIndices, List.length_cons]
    split <;> simp [h]

theorem destructorCalls_importEvents (arr : List gcsALLOCATOR_DESC) (i : Nat) :
    destructorCalls (importEvents arr i) = [] := by
  induction arr generalizing i with
  | nil => rfl
  | cons desc rest ih =>
    rw [importEvents, destructorCalls_append, ih]
    unfold importBodyEvents
    rcases hc : desc.construct with _ | ⟨status, allocator⟩
    · simp [destructorCalls]
    · by_cases he : gcmIS_ERROR status = true
      · simp [he, destructorCalls]
      · simp [he, destructorCalls]

theorem destructorCalls_traces (l : List gckALLOCATOR) :
    destructorCalls (l.map (fun a => Event.traceZone a.name)) = [] := by
  induction l with
  | nil => rfl
  | cons a rest ih => simp [destructorCalls, ih]

theorem import_constructCalls (gcdDEBUG : Bool) (arr : List gcsALLOCATOR_DESC)
    (dirInit : gceSTATUS) (Os : gckOS) :
    constructCalls (emitted Os (gckOS_ImportAllocators gcdDEBUG arr dirInit Os).2)
      = constructIndices arr 0 := by
  rw [import_emitted]
  cases gcdDEBUG <;>
    simp [constructCalls, constructCalls_append, constructCalls_importEvents,
      constructCalls_traces]

theorem import_printedNames (gcdDEBUG : Bool) (arr : List gcsALLOCATOR_DESC)
    (dirInit : gceSTATUS) (Os : gckOS) :
    printedNames (emitted Os (gckOS_ImportAllocators gcdDEBUG arr dirInit Os).2)
      = (arr.filter failed).map (fun d => d.name) := by
  rw [import_emitted]
  cases gcdDEBUG <;>
    simp [printedNames, printedNames_append, printedNames_importEvents, printedNames_traces]

theorem import_destructorCalls (gcdDEBUG : Bool) (arr : List gcsALLOCATOR_DESC)
    (dirInit : gceSTATUS) (Os : gckOS) :
    destructorCalls (emitted Os (gckOS_ImportAllocators gcdDEBUG arr dirInit Os).2) = [] := by
  rw [import_emitted]
  cases gcdDEBUG <;>
    simp [destructorCalls, destructorCalls_append, destructorCalls_importEvents,
      destructorCalls_traces]

theorem import_then_free_destructorCalls (gcdDEBUG : Bool) (arr : List gcsALLOCATOR_DESC)
    (dirInit : gceSTATUS) (Os : gckOS) :
    destructorCalls
        (emitted Os (gckOS_FreeAllocators (gckOS_ImportAllocators gcdDEBUG arr dirInit Os).2).2)
      = (arr.filterMap produced).map (fun a => (a.destructor, a)) := by
  have h : (gckOS_FreeAllocators (gckOS_ImportAllocators gcdDEBUG arr dirInit Os).2).2.log
      = Os.log ++ (emitted Os (gckOS_ImportAllocators gcdDEBUG arr dirInit Os).2
          ++ (freeEvents (arr.filterMap produced) ++ [Event.debugfsDirDeinit])) := by
    rw [free_state, import_emitted, (import_state gcdDEBUG arr dirInit Os).1,
      (import_state gcdDEBUG arr dirInit Os).2]
    simp
  rw [emitted_of_log_eq _ _ _ h, destructorCalls_append, import_destructorCalls,
    destructorCalls_append, destructorCalls_freeEvents]
  simp [destructorCalls]

theorem countingWalk (l : List gckALLOCATOR) (Os : gckOS) (n : Nat) :
    list_for_each_entry_safe
        (fun allocator (p : gckOS × Nat) => (freeBody allocator p.1, p.2 + 1)) l (Os, n)
      = (list_for_each_entry_safe freeBody l Os, n + l.length) := by
  induction l generalizing Os n with
  | nil => simp [list_for_each_entry_safe]
  | cons a rest ih =>
    rw [list_for_each_entry_safe, ih, list_for_each_entry_safe]
    simp only [List.length_cons]
    congr 1
    omega

theorem produced_addr (desc : gcsALLOCATOR_DESC) (b : gckALLOCATOR)
    (h : produced desc = some b) :
    ∃ status stored, desc.construct = some (status, stored) ∧ b.addr = stored.addr := by
  unfold produced at h
  rcases hc : desc.construct with _ | ⟨status, stored⟩
  · simp [hc] at h
  · by_cases he : gcmIS_ERROR status = true
    · simp [hc, he] at h
    · simp only [hc, he] at h
      simp only [Bool.false_eq_true, if_false, Option.some.injEq] at h
      exact ⟨status, stored, rfl, by rw [← h]⟩

/-- C11: both operations are total functions of their inputs.
`gckOS_ImportAllocators` calls at most one constructor per table entry: the
constructor calls are pairwise different indices of the table.
`gckOS_FreeAllocators` runs its loop body exactly once per entry of the list
(a counter added to the body ends at the length of the list, and as many
destructor calls are recorded) and returns `gcvSTATUS_OK`, which is not an
error status. -/
theorem import_free_bounded (gcdDEBUG : Bool) (arr : List gcsALLOCATOR_DESC)
    (dirInit : gceSTATUS) (Os : gckOS) :
    (constructCalls (emitted Os (gckOS_ImportAllocators gcdDEBUG arr dirInit Os).2)).length
        ≤ arr.length
    ∧ (constructCalls (emitted Os (gckOS_ImportAllocators gcdDEBUG arr dirInit Os).2)).Nodup
    ∧ (∀ i ∈ constructCalls (emitted Os (gckOS_ImportAllocators gcdDEBUG arr dirInit Os).2),
        i < arr.length)
    ∧ list_for_each_entry_safe
          (fun allocator (p : gckOS × Nat) => (freeBody allocator p.1, p.2 + 1))
          Os.allocatorList (Os, 0)
        = (list_for_each_entry_safe freeBody Os.allocatorList Os, Os.allocatorList.length)
    ∧ (destructorCalls (emitted Os (gckOS_FreeAllocators Os).2)).length
        = Os.allocatorList.length
    ∧ (gckOS_FreeAllocators Os).1 = gcvSTATUS_OK
    ∧ gcmIS_ERROR (gckOS_FreeAllocators Os).1 = false := by
  rw [import_constructCalls, free_destructorCalls]
  have hok : gcmIS_ERROR gcvSTATUS_OK = false := by decide
  refine ⟨constructIndices_length arr 0, constructIndices_nodup arr 0, ?_, ?_, by simp,
    rfl, hok⟩
  · intro i hi
    have := (constructIndices_bounds arr 0 i hi).2
    omega
  · simpa using countingWalk Os.allocatorList Os 0

/-- C11, the scenario: three constructor calls for the table of three entries,
and three passes of the loop for the registry with three live allocators. -/
theorem import_free_bounded_scenario :
    (constructCalls
        (emitted scenarioOs (gckOS_ImportAllocators true scenarioArray 0 scenarioOs).2)).length
        ≤ 3
    ∧ (destructorCalls (emitted liveOs (gckOS_FreeAllocators liveOs).2)).length = 3 :=
  ⟨(import_free_bounded true scenarioArray 0 scenarioOs).1,
   (import_free_bounded true scenarioArray 0 liveOs).2.2.2.2.1⟩

/-- C12: `gckOS_ImportAllocators` starts from an empty list: the list after the
call is the same whatever the registry held before, and the call itself makes
no destructor call.  Hence an allocator that was linked before the call, and
whose object none of the constructors hands out again, is no longer linked
after the call, and `gckOS_FreeAllocators` called afterwards makes no destructor
call on it: from the state before the import to the state after the teardown
no destructor call has that object as its argument. -/
theorem import_reinitialises_list (gcdDEBUG : Bool) (arr : List gcsALLOCATOR_DESC)
    (dirInit : gceSTATUS) (Os : gckOS) :
    (∀ Os2 : gckOS,
        (gckOS_ImportAllocators gcdDEBUG arr dirInit Os2).2.allocatorList
          = (gckOS_ImportAllocators gcdDEBUG arr dirInit Os).2.allocatorList)
    ∧ destructorCalls (emitted Os (gckOS_ImportAllocators gcdDEBUG arr dirInit Os).2) = []
    ∧ ∀ a ∈ Os.allocatorList,
        (∀ desc ∈ arr, ∀ status stored,
          desc.construct = some (status, stored) → stored.addr ≠ a.addr) →
        (∀ b ∈ (gckOS_ImportAllocators gcdDEBUG arr dirInit Os).2.allocatorList,
          b.addr ≠ a.addr)
        ∧ ∀ c ∈ destructorCalls
              (emitted Os
                (gckOS_FreeAllocators (gckOS_ImportAllocators gcdDEBUG arr dirInit Os).2).2),
            c.2.addr ≠ a.addr := by
  have hfresh : ∀ a : gckALLOCATOR,
      (∀ desc ∈ arr, ∀ status stored,
        desc.construct = some (status, stored) → stored.addr ≠ a.addr) →
      ∀ b ∈ arr.filterMap produced, b.addr ≠ a.addr := by
    intro a h b hb
    obtain ⟨desc, hdesc, hp⟩ := List.mem_filterMap.mp hb
    obtain ⟨status, stored, hc, hadd⟩ := produced_addr desc b hp
    rw [hadd]
    exact h desc hdesc status stored hc
  refine ⟨?_, import_destructorCalls gcdDEBUG arr dirInit Os, ?_⟩
  · intro Os2
    rw [(import_state gcdDEBUG arr dirInit Os2).1, (import_state gcdDEBUG arr dirInit Os).1]
  · intro a _ h
    rw [(import_state gcdDEBUG arr dirInit Os).1, import_then_free_destructorCalls]
    refine ⟨hfresh a h, ?_⟩
    intro c hc
    obtain ⟨b, hb, rfl⟩ := List.mem_map.mp hc
    exact hfresh a h b hb

/-- C12, the scenario: the registry holds a stale allocator at address 64; after
the import of the scenario table the list holds the two new allocators only,
and the teardown that follows destroys these two and not the stale one. -/
theorem import_reinitialises_list_scenario :
    (gckOS_ImportAllocators true scenarioArray 0 scenarioOs).2.allocatorList
        = (gckOS_ImportAllocators true scenarioArray 0 liveOs).2.allocatorList
    ∧ ∀ c ∈ destructorCalls
          (emitted scenarioOs
            (gckOS_FreeAllocators (gckOS_ImportAllocators true scenarioArray 0 scenarioOs).2).2),
        c.2.addr ≠ 64 :=
  ⟨((import_reinitialises_list true scenarioArray 0 liveOs).1 scenarioOs),
   ((import_reinitialises_list true scenarioArray 0 scenarioOs).2.2
      { addr := 64, name := "stale", destructor := 3 } (by decide)
      (by
        intro desc hmem status stored hc
        simp only [scenarioArray, List.mem_cons, List.mem_singleton, List.not_mem_nil,
          or_false] at hmem
        rcases hmem with rfl | rfl | rfl <;>
        · simp only [Option.some.injEq, Prod.mk.injEq] at hc
          rw [← hc.2]
          decide)).2⟩

/-- C13: `gckOS_FreeAllocators` calls the destructors in list order: for the list
a1, ..., an the destructor calls are, in this order, the destructor of a1 on
a1, ..., the destructor of an on an.  After `gckOS_ImportAllocators` the list
order is the order of the table, so the allocators are destroyed in the order
in which they were constructed. -/
theorem free_in_list_order (Os : gckOS) :
    destructorCalls (emitted Os (gckOS_FreeAllocators Os).2)
        = Os.allocatorList.map (fun a => (a.destructor, a))
    ∧ ∀ (gcdDEBUG : Bool) (arr : List gcsALLOCATOR_DESC) (dirInit : gceSTATUS),
        (destructorCalls
            (emitted Os
              (gckOS_FreeAllocators (gckOS_ImportAllocators gcdDEBUG arr dirInit Os).2).2)).map
            (fun c => c.2.name)
          = (arr.filter constructed).map (fun d => d.name) := by
  refine ⟨free_destructorCalls Os, ?_⟩
  intro gcdDEBUG arr dirInit
  rw [import_then_free_destructorCalls, List.map_map, ← produced_names]
  rfl

/-- C13, the scenario: the three live allocators are destroyed from the first
to the last, and after the import of the scenario table "contig" is destroyed
before "reserved". -/
theorem free_in_list_order_scenario :
    (destructorCalls (emitted liveOs (gckOS_FreeAllocators liveOs).2)).map (fun c => c.2.addr)
        = [4096, 8192, 12288]
    ∧ (destructorCalls
          (emitted scenarioOs
            (gckOS_FreeAllocators
              (gckOS_ImportAllocators false scenarioArray 0 scenarioOs).2).2)).map
          (fun c => c.2.name)
        = ["contig", "reserved"] :=
  ⟨(congrArg (List.map (fun c => c.2.addr)) (free_in_list_order liveOs).1).trans (by decide),
   ((free_in_list_order scenarioOs).2 false scenarioArray 0).trans (by decide)⟩

/-- C14: a table entry whose `construct` member is null is passed over in
silence.  With such an entry between the entries `front` and `back`, the list
and the printed failure messages are those of the table without it, no
constructor call is made for its index, and the constructor calls made are
those of the entries before and after it, under their own indices. -/
theorem import_skips_null_construct (gcdDEBUG : Bool) (front back : List gcsALLOCATOR_DESC)
    (desc : gcsALLOCATOR_DESC) (dirInit : gceSTATUS) (Os : gckOS)
    (hnull : desc.construct = none) :
    (gckOS_ImportAllocators gcdDEBUG (front ++ desc :: back) dirInit Os).2.allocatorList
        = (gckOS_ImportAllocators gcdDEBUG (front ++ back) dirInit Os).2.allocatorList
    ∧ printedNames
          (emitted Os (gckOS_ImportAllocators gcdDEBUG (front ++ desc :: back) dirInit Os).2)
        = printedNames
            (emitted Os (gckOS_ImportAllocators gcdDEBUG (front ++ back) dirInit Os).2)
    ∧ front.length ∉ constructCalls
          (emitted Os (gckOS_ImportAllocators gcdDEBUG (front ++ desc :: back) dirInit Os).2)
    ∧ constructCalls
          (emitted Os (gckOS_ImportAllocators gcdDEBUG (front ++ desc :: back) dirInit Os).2)
        = constructIndices front 0 ++ constructIndices back (front.length + 1) := by
  have hp : produced desc = none := by simp [produced, hnull]
  have hf : failed desc = false := by simp [failed, hnull]
  have hc : constructCalls
      (emitted Os (gckOS_ImportAllocators gcdDEBUG (front ++ desc :: back) dirInit Os).2)
      = constructIndices front 0 ++ constructIndices back (front.length + 1) := by
    rw [import_constructCalls, constructIndices_append]
    simp [constructIndices, hnull]
  refine ⟨?_, ?_, ?_, hc⟩
  · rw [(import_state _ _ _ _).1, (import_state _ _ _ _).1]
    simp [List.filterMap_append, List.filterMap_cons, hp]
  · rw [import_printedNames, import_printedNames]
    simp [List.filter_append, List.filter_cons, hf]
  · rw [hc]
    intro hmem
    rcases List.mem_append.mp hmem with h | h
    · have := (constructIndices_bounds front 0 _ h).2
      omega
    · have := (constructIndices_bounds back (front.length + 1) _ h).1
      omega

/-- C14, witness: the scenario table with a null entry "user" put after
"contig": the list is [contig, reserved] as without it, only "paged" is
printed, and the constructors called are those of the indices 0, 2 and 3. -/
theorem import_skips_null_construct_witness :
    (gckOS_ImportAllocators true
        (scenarioArray.take 1 ++ { name := "user", construct := none } :: scenarioArray.drop 1)
        0 scenarioOs).2.allocatorList
      = (gckOS_ImportAllocators true scenarioArray 0 scenarioOs).2.allocatorList
    ∧ constructCalls
        (emitted scenarioOs
          (gckOS_ImportAllocators true
            (scenarioArray.take 1 ++ { name := "user", construct := none }
              :: scenarioArray.drop 1)
            0 scenarioOs).2)
      = [0, 2, 3] :=
  ⟨(import_skips_null_construct true (scenarioArray.take 1) (scenarioArray.drop 1)
      { name := "user", construct := none } 0 scenarioOs rfl).1.trans (by decide),
   (import_skips_null_construct true (scenarioArray.take 1) (scenarioArray.drop 1)
      { name := "user", construct := none } 0 scenarioOs rfl).2.2.2.trans (by decide)⟩

end GcHal

namespace DcssSs

/-! ## Auxiliary facts on bit operations -/

theorem and_shiftLeft_shiftRight (x m k : Nat) :
    (x &&& (m <<< k)) >>> k = (x >>> k) &&& m := by
  apply Nat.eq_of_testBit_eq
  intro i
  simp [Nat.testBit_shiftRight, Nat.testBit_and, Nat.testBit_shiftLeft]

theorem lt_of_testBit {x n i : Nat} (hx : x < 2 ^ n) (h : x.testBit i = true) : i < n := by
  by_contra hn
  have hle : 2 ^ n ≤ 2 ^ i := Nat.pow_le_pow_right (by decide) (Nat.le_of_not_lt hn)
  have := Nat.testBit_lt_two_pow (Nat.lt_of_lt_of_le hx hle)
  rw [this] at h
  exact Bool.false_ne_true h

theorem shl_or_eq (a b : Nat) (hb : b < 2 ^ 16) : a <<< 16 ||| b = a * 65536 + b := by
  rw [Nat.shiftLeft_eq, Nat.mul_comm, ← Nat.mul_add_lt_is_or hb]

theorem shl_int_u16 (y : Nat) (hy : y < 2 ^ 16) : shl_int y 16 = y <<< 16 := by
  unfold shl_int
  rw [Nat.shiftLeft_eq]
  omega

theorem u16_lt (x : Nat) : u16 x < 2 ^ 16 := Nat.mod_lt _ (by decide)

/-! ## Auxiliary facts on the writes -/

theorem dcss_ss_write_eq (ss : dcss_ss_priv) (val ofs : Nat) (log : List HwEvent) :
    dcss_ss_write ss val ofs log = log ++ writeEvents ss val ofs := by
  unfold dcss_ss_write writeEvents
  cases ss.in_use <;> simp

theorem ctxldWrites_append (xs ys : List HwEvent) :
    ctxldWrites (xs ++ ys) = ctxldWrites xs ++ ctxldWrites ys := by
  induction xs with
  | nil => rfl
  | cons e es ih => cases e <;> simp [ctxldWrites, ih]

theorem directWrites_append (xs ys : List HwEvent) :
    directWrites (xs ++ ys) = directWrites xs ++ directWrites ys := by
  induction xs with
  | nil => rfl
  | cons e es ih => cases e <;> simp [directWrites, ih]

theorem ctxldWrites_writeEvents (ss : dcss_ss_priv) (val ofs : Nat) :
    ctxldWrites (writeEvents ss val ofs)
      = [(ss.ctx_id, u32 val, add32 ss.base_ofs (u32 ofs))] := by
  unfold writeEvents
  cases ss.in_use <;> simp [ctxldWrites]

theorem directWrites_writeEvents (ss : dcss_ss_priv) (val ofs : Nat) :
    directWrites (writeEvents ss val ofs)
      = if ss.in_use then [] else [(u32 val, ss.base_reg + u32 ofs)] := by
  unfold writeEvents
  cases ss.in_use <;> simp [directWrites]

theorem sync_set_eq (dcss : dcss_soc) (ss : dcss_ss_priv) (vm : videomode)
    (phsync pvsync : Bool) (hss : dcss.ss_priv = some ss) :
    dcss_ss_sync_set dcss vm phsync pvsync
      = some { dcss with log := dcss.log ++ syncEvents ss vm phsync pvsync } := by
  unfold dcss_ss_sync_set syncEvents
  simp only [hss, dcss_ss_write_eq, List.append_assoc]

theorem sync_set_ctxldWrites (ss : dcss_ss_priv) (vm : videomode) (phsync pvsync : Bool) :
    ctxldWrites (syncEvents ss vm phsync pvsync)
      = [ (ss.ctx_id, u32 (display_arg vm), add32 ss.base_ofs DCSS_SS_DISPLAY),
          (ss.ctx_id, u32 (hsync_arg vm phsync), add32 ss.base_ofs DCSS_SS_HSYNC),
          (ss.ctx_id, u32 (vsync_arg vm pvsync), add32 ss.base_ofs DCSS_SS_VSYNC),
          (ss.ctx_id, u32 (de_ulc_arg vm), add32 ss.base_ofs DCSS_SS_DE_ULC),
          (ss.ctx_id, u32 (de_lrc_arg vm), add32 ss.base_ofs DCSS_SS_DE_LRC) ] := by
  unfold syncEvents
  simp only [ctxldWrites_append, ctxldWrites_writeEvents]
  rfl

theorem sync_set_directWrites (ss : dcss_ss_priv) (vm : videomode) (phsync pvsync : Bool)
    (h : ss.in_use = false) :
    directWrites (syncEvents ss vm phsync pvsync)
      = [ (u32 (display_arg vm), ss.base_reg + DCSS_SS_DISPLAY),
          (u32 (hsync_arg vm phsync), ss.base_reg + DCSS_SS_HSYNC),
          (u32 (vsync_arg vm pvsync), ss.base_reg + DCSS_SS_VSYNC),
          (u32 (de_ulc_arg vm), ss.base_reg + DCSS_SS_DE_ULC),
          (u32 (de_lrc_arg vm), ss.base_reg + DCSS_SS_DE_LRC) ] := by
  unfold syncEvents
  simp only [directWrites_append, directWrites_writeEvents, h]
  rfl

/-! ## The horizontal sync register -/

theorem hsync_end_eq (vm : videomode) (h1 : 1 ≤ vm.hsync_len) (h2 : vm.hsync_len ≤ 8192) :
    hsync_end vm = vm.hsync_len - 1 := by
  unfold hsync_end u16 sub32
  omega

theorem hsync_start_eq (vm : videomode) (h1 : 1 ≤ vm.hsync_len)
    (h3 : vm.hfront_porch + vm.hback_porch + vm.hsync_len + vm.hactive ≤ 8192) :
    hsync_start vm = vm.hfront_porch + vm.hback_porch + vm.hsync_len + vm.hactive - 1 := by
  unfold hsync_start u16 sub32 add32
  omega

theorem hsync_arg_eq (vm : videomode) (phsync : Bool)
    (h1 : 1 ≤ vm.hsync_len) (h2 : vm.hsync_len ≤ 8192)
    (h3 : vm.hfront_porch + vm.hback_porch + vm.hsync_len + vm.hactive ≤ 8192) :
    hsync_arg vm phsync
      = (if phsync then 2 ^ 31 else 0) ||| ((vm.hsync_len - 1) <<< 16
          ||| (vm.hfront_porch + vm.hback_porch + vm.hsync_len + vm.hactive - 1)) := by
  unfold hsync_arg
  rw [hsync_end_eq vm h1 h2, hsync_start_eq vm h1 h3, Nat.or_assoc]
  have hs : shl_int (vm.hsync_len - 1) SYNC_END_POS = (vm.hsync_len - 1) <<< 16 :=
    shl_int_u16 _ (by omega)
  have hi : int_to_ulong ((vm.hsync_len - 1) <<< 16) = (vm.hsync_len - 1) <<< 16 := by
    unfold int_to_ulong
    rw [Nat.shiftLeft_eq]
    split
    · omega
    · rfl
  rw [hs, hi]
  simp [SYNC_POL, BIT, Nat.one_shiftLeft]

theorem hsync_arg_sum (vm : videomode) (phsync : Bool)
    (h1 : 1 ≤ vm.hsync_len) (h2 : vm.hsync_len ≤ 8192)
    (h3 : vm.hfront_porch + vm.hback_porch + vm.hsync_len + vm.hactive ≤ 8192) :
    u32 (hsync_arg vm phsync)
      = (if phsync then 2 ^ 31 else 0) + (vm.hsync_len - 1) * 2 ^ 16
          + (vm.hfront_porch + vm.hback_porch + vm.hsync_len + vm.hactive - 1) := by
  rw [hsync_arg_eq vm phsync h1 h2 h3, shl_or_eq _ _ (by omega)]
  cases phsync
  · simp only [Bool.false_eq_true, if_false, Nat.zero_or, u32]
    omega
  · simp only [if_true]
    have h := Nat.mul_add_lt_is_or
      (show (vm.hsync_len - 1) * 65536
        + (vm.hfront_porch + vm.hback_porch + vm.hsync_len + vm.hactive - 1) < 2 ^ 31 by omega) 1
    rw [Nat.mul_one] at h
    rw [← h]
    unfold u32
    omega

theorem fields_of_sum (p e s : Nat) (hp : p = 0 ∨ p = 2 ^ 31) (he : e < 2 ^ 13)
    (hs : s < 2 ^ 13) :
    ((p + e * 2 ^ 16 + s) &&& SYNC_END_MASK) >>> SYNC_END_POS = e
    ∧ ((p + e * 2 ^ 16 + s) &&& SYNC_START_MASK) >>> SYNC_START_POS = s := by
  have hm : SYNC_END_MASK = (2 ^ 13 - 1) <<< 16 := by decide
  have hm2 : SYNC_START_MASK = 2 ^ 13 - 1 := by decide
  refine ⟨?_, ?_⟩
  · rw [hm]
    unfold SYNC_END_POS
    rw [and_shiftLeft_shiftRight, Nat.and_pow_two_sub_one_eq_mod, Nat.shiftRight_eq_div_pow]
    rcases hp with rfl | rfl <;> omega
  · rw [hm2, Nat.and_pow_two_sub_one_eq_mod]
    unfold SYNC_START_POS
    rw [Nat.shiftRight_zero]
    rcases hp with rfl | rfl <;> omega

theorem display_x_field (vm : videomode) :
    (u32 (display_arg vm) &&& LRC_X_MASK) >>> LRC_X_POS = lrc_x vm % 2 ^ 13 := by
  have hm : LRC_X_MASK = 2 ^ 13 - 1 := by decide
  have hx : lrc_x vm < 2 ^ 16 := u16_lt _
  have hy : lrc_y vm < 2 ^ 16 := u16_lt _
  unfold display_arg LRC_Y_POS LRC_X_POS
  rw [shl_int_u16 _ hy, shl_or_eq _ _ hx, hm, Nat.and_pow_two_sub_one_eq_mod,
    Nat.shiftRight_zero]
  unfold u32
  omega

theorem hsync_bits (vm : videomode) (phsync : Bool)
    (h1 : 1 ≤ vm.hsync_len) (h2 : vm.hsync_len ≤ 8192)
    (h3 : vm.hfront_porch + vm.hback_porch + vm.hsync_len + vm.hactive ≤ 8192) (i : Nat)
    (hi : Nat.testBit (u32 (hsync_arg vm phsync)) i = true) :
    i = 31 ∨ (16 ≤ i ∧ i ≤ 28) ∨ i ≤ 12 := by
  rw [hsync_arg_eq vm phsync h1 h2 h3] at hi
  unfold u32 at hi
  simp only [Nat.testBit_mod_two_pow, Nat.testBit_or, Nat.testBit_shiftLeft, Bool.and_eq_true,
    Bool.or_eq_true, decide_eq_true_eq] at hi
  rcases hi.2 with hp | ⟨hge, he⟩ | hs
  · cases phsync
    · simp at hp
    · simp only [if_true, Nat.testBit_two_pow, decide_eq_true_eq] at hp
      exact Or.inl hp.symm
  · have := lt_of_testBit (show vm.hsync_len - 1 < 2 ^ 13 by omega) he
    exact Or.inr (Or.inl (by omega))
  · have := lt_of_testBit
      (show vm.hfront_porch + vm.hback_porch + vm.hsync_len + vm.hactive - 1 < 2 ^ 13 by omega) hs
    exact Or.inr (Or.inr (by omega))

/-- C15: for a video mode with 1 <= hsync_len <= 8192 and
hfront_porch + hback_porch + hsync_len + hactive <= 8192, the 32-bit value that
`dcss_ss_sync_set` writes to `DCSS_SS_HSYNC` has bit 31 (`SYNC_POL`) set exactly
when `phsync` holds, carries hsync_len - 1 in the bits 28..16 (`SYNC_END_MASK`)
and hfront_porch + hback_porch + hsync_len + hactive - 1 in the bits 12..0
(`SYNC_START_MASK`), and has no other bit set; the start field equals the X
field of the value written to `DCSS_SS_DISPLAY`.  The values meant are the
second and the first of the five values the call queues to the context
loader. -/
theorem hsync_register_value (vm : videomode) (phsync : Bool)
    (h1 : 1 ≤ vm.hsync_len) (h2 : vm.hsync_len ≤ 8192)
    (h3 : vm.hfront_porch + vm.hback_porch + vm.hsync_len + vm.hactive ≤ 8192) :
    Nat.testBit (u32 (hsync_arg vm phsync)) 31 = phsync
    ∧ (u32 (hsync_arg vm phsync) &&& SYNC_END_MASK) >>> SYNC_END_POS = vm.hsync_len - 1
    ∧ (u32 (hsync_arg vm phsync) &&& SYNC_START_MASK) >>> SYNC_START_POS
        = vm.hfront_porch + vm.hback_porch + vm.hsync_len + vm.hactive - 1
    ∧ (∀ i, Nat.testBit (u32 (hsync_arg vm phsync)) i = true →
        i = 31 ∨ (16 ≤ i ∧ i ≤ 28) ∨ i ≤ 12)
    ∧ (u32 (hsync_arg vm phsync) &&& SYNC_START_MASK) >>> SYNC_START_POS
        = (u32 (display_arg vm) &&& LRC_X_MASK) >>> LRC_X_POS
    ∧ ∀ (dcss : dcss_soc) (ss : dcss_ss_priv) (pvsync : Bool), dcss.ss_priv = some ss →
        ∃ after, dcss_ss_sync_set dcss vm phsync pvsync = some after
          ∧ (ctxldWrites (after.log.drop dcss.log.length)).take 2
              = [ (ss.ctx_id, u32 (display_arg vm), add32 ss.base_ofs DCSS_SS_DISPLAY),
                  (ss.ctx_id, u32 (hsync_arg vm phsync), add32 ss.base_ofs DCSS_SS_HSYNC) ] := by
  have hsum := hsync_arg_sum vm phsync h1 h2 h3
  have hp : (if phsync then 2 ^ 31 else 0) = 0 ∨ (if phsync then 2 ^ 31 else 0) = 2 ^ 31 := by
    cases phsync <;> simp
  have hf := fields_of_sum (if phsync then 2 ^ 31 else 0) (vm.hsync_len - 1)
    (vm.hfront_porch + vm.hback_porch + vm.hsync_len + vm.hactive - 1) hp (by omega) (by omega)
  rw [← hsum] at hf
  refine ⟨?_, hf.1, hf.2, hsync_bits vm phsync h1 h2 h3, ?_, ?_⟩
  · rw [hsum, Nat.testBit_to_div_mod]
    cases phsync
    · simp only [Bool.false_eq_true, if_false, decide_eq_false_iff_not]
      omega
    · simp only [if_true, decide_eq_true_eq]
      omega
  · rw [hf.2, display_x_field]
    have : lrc_x vm = vm.hfront_porch + vm.hback_porch + vm.hsync_len + vm.hactive - 1 :=
      hsync_start_eq vm h1 h3
    rw [this]
    omega
  · intro dcss ss pvsync hss
    refine ⟨_, sync_set_eq dcss ss vm phsync pvsync hss, ?_⟩
    simp only [List.drop_left, sync_set_ctxldWrites]
    rfl

/-- C15, witness: the mode 1920x1080 with positive horizontal sync polarity;
the value written is 0x802b0897. -/
theorem hsync_register_value_witness :
    (1 ≤ mode1080p.hsync_len ∧ mode1080p.hsync_len ≤ 8192)
    ∧ (u32 (hsync_arg mode1080p true) &&& SYNC_END_MASK) >>> SYNC_END_POS = 43
    ∧ (u32 (hsync_arg mode1080p true) &&& SYNC_START_MASK) >>> SYNC_START_POS = 2199
    ∧ u32 (hsync_arg mode1080p true) = 0x802b0897 :=
  ⟨by decide,
   (hsync_register_value mode1080p true (by decide) (by decide) (by decide)).2.1,
   (hsync_register_value mode1080p true (by decide) (by decide) (by decide)).2.2.1,
   by decide⟩

/-! ## The data-enable window -/

theorem or_mod_two_pow (a b n : Nat) : (a ||| b) % 2 ^ n = a % 2 ^ n ||| b % 2 ^ n := by
  apply Nat.eq_of_testBit_eq
  intro i
  simp only [Nat.testBit_mod_two_pow, Nat.testBit_or, Bool.and_or_distrib_left]

theorem or_shiftRight (a b k : Nat) : (a ||| b) >>> k = a >>> k ||| b >>> k := by
  apply Nat.eq_of_testBit_eq
  intro i
  simp only [Nat.testBit_shiftRight, Nat.testBit_or]

theorem de_ulc_low (vm : videomode) : u32 (de_ulc_arg vm) % 2 ^ 16 = de_ulc_x vm := by
  have hx : de_ulc_x vm < 2 ^ 16 := u16_lt _
  have hy : de_ulc_y vm < 2 ^ 16 := u16_lt _
  have h1 : u32 (de_ulc_arg vm) % 2 ^ 16 = de_ulc_arg vm % 2 ^ 16 := by
    unfold u32
    omega
  have hB : int_to_ulong (de_ulc_y vm <<< 16) % 2 ^ 16 = 0 := by
    unfold int_to_ulong
    rw [Nat.shiftLeft_eq]
    split <;> omega
  have hA : SYNC_POL % 2 ^ 16 = 0 := by decide
  have hX : de_ulc_x vm % 2 ^ 16 = de_ulc_x vm := Nat.mod_eq_of_lt hx
  rw [h1]
  unfold de_ulc_arg ULC_Y_POS
  rw [shl_int_u16 _ hy, or_mod_two_pow, or_mod_two_pow, hA, hB, hX]
  simp

theorem de_ulc_high (vm : videomode) :
    (u32 (de_ulc_arg vm) / 2 ^ 16) % 2 ^ 15 = de_ulc_y vm % 2 ^ 15 := by
  have hx : de_ulc_x vm < 2 ^ 16 := u16_lt _
  have hy : de_ulc_y vm < 2 ^ 16 := u16_lt _
  have h1 : (u32 (de_ulc_arg vm) / 2 ^ 16) % 2 ^ 15 = (de_ulc_arg vm >>> 16) % 2 ^ 15 := by
    rw [Nat.shiftRight_eq_div_pow]
    unfold u32
    omega
  have hB : (int_to_ulong (de_ulc_y vm <<< 16) >>> 16) % 2 ^ 15 = de_ulc_y vm % 2 ^ 15 := by
    unfold int_to_ulong
    rw [Nat.shiftLeft_eq, Nat.shiftRight_eq_div_pow]
    split <;> omega
  have hA : (SYNC_POL >>> 16) % 2 ^ 15 = 0 := by decide
  have hX : (de_ulc_x vm >>> 16) % 2 ^ 15 = 0 := by
    rw [Nat.shiftRight_eq_div_pow]
    omega
  rw [h1]
  unfold de_ulc_arg ULC_Y_POS
  rw [shl_int_u16 _ hy, or_shiftRight, or_shiftRight, or_mod_two_pow, or_mod_two_pow, hA, hB, hX]
  simp

theorem de_lrc_sum (vm : videomode) :
    u32 (de_lrc_arg vm) = de_lrc_y vm * 65536 + de_lrc_x vm := by
  have hx : de_lrc_x vm < 2 ^ 16 := u16_lt _
  have hy : de_lrc_y vm < 2 ^ 16 := u16_lt _
  unfold de_lrc_arg LRC_Y_POS
  rw [shl_int_u16 _ hy, shl_or_eq _ _ hx]
  unfold u32
  omega

/-- C16: for every video mode the data-enable window that `dcss_ss_sync_set`
writes satisfies, in arithmetic modulo 2^16, de_lrc_x - de_ulc_x = hactive and
de_lrc_y - de_ulc_y = vactive - 1, and the value written to `DCSS_SS_DE_ULC` has
bit 31 set whatever `phsync` and `pvsync` are.  The corners are written in the
low and high halves of the fourth and fifth value the call queues to the
context loader (bit 31 of the fourth value being always set). -/
theorem de_window (vm : videomode) :
    (de_lrc_x vm + 2 ^ 16 - de_ulc_x vm) % 2 ^ 16 = vm.hactive % 2 ^ 16
    ∧ (de_lrc_y vm + 2 ^ 16 - de_ulc_y vm) % 2 ^ 16 = (vm.vactive + 2 ^ 16 - 1) % 2 ^ 16
    ∧ Nat.testBit (u32 (de_ulc_arg vm)) 31 = true
    ∧ u32 (de_ulc_arg vm) % 2 ^ 16 = de_ulc_x vm
    ∧ (u32 (de_ulc_arg vm) / 2 ^ 16) % 2 ^ 15 = de_ulc_y vm % 2 ^ 15
    ∧ u32 (de_lrc_arg vm) % 2 ^ 16 = de_lrc_x vm
    ∧ u32 (de_lrc_arg vm) / 2 ^ 16 = de_lrc_y vm
    ∧ ∀ (dcss : dcss_soc) (ss : dcss_ss_priv) (phsync pvsync : Bool),
        dcss.ss_priv = some ss →
        ∃ after, dcss_ss_sync_set dcss vm phsync pvsync = some after
          ∧ (ctxldWrites (after.log.drop dcss.log.length)).drop 3
              = [ (ss.ctx_id, u32 (de_ulc_arg vm), add32 ss.base_ofs DCSS_SS_DE_ULC),
                  (ss.ctx_id, u32 (de_lrc_arg vm), add32 ss.base_ofs DCSS_SS_DE_LRC) ] := by
  have hx : de_lrc_x vm < 2 ^ 16 := u16_lt _
  have hy : de_lrc_y vm < 2 ^ 16 := u16_lt _
  refine ⟨?_, ?_, ?_, de_ulc_low vm, de_ulc_high vm, ?_, ?_, ?_⟩
  · unfold de_lrc_x de_ulc_x u16 sub32 add32
    omega
  · unfold de_lrc_y de_ulc_y u16 sub32 add32
    omega
  · have hpol : SYNC_POL.testBit 31 = true := by decide
    unfold u32 de_ulc_arg
    rw [Nat.testBit_mod_two_pow, Nat.testBit_or, Nat.testBit_or, hpol]
    simp
  · rw [de_lrc_sum]
    omega
  · rw [de_lrc_sum]
    omega
  · intro dcss ss phsync pvsync hss
    refine ⟨_, sync_set_eq dcss ss vm phsync pvsync hss, ?_⟩
    simp only [List.drop_left, sync_set_ctxldWrites]
    rfl

/-- C16, witness: for the mode 1920x1080 the window is 1920 wide and spans 1079
lines, and the value written to `DCSS_SS_DE_ULC` is 0x802d00bf. -/
theorem de_window_witness :
    (de_lrc_x mode1080p + 2 ^ 16 - de_ulc_x mode1080p) % 2 ^ 16 = 1920
    ∧ (de_lrc_y mode1080p + 2 ^ 16 - de_ulc_y mode1080p) % 2 ^ 16 = 1079
    ∧ Nat.testBit (u32 (de_ulc_arg mode1080p)) 31 = true
    ∧ u32 (de_ulc_arg mode1080p) = 0x802d00bf :=
  ⟨(de_window mode1080p).1.trans (by decide), (de_window mode1080p).2.1.trans (by decide),
   (de_window mode1080p).2.2.1, by decide⟩

/-! ## The two write paths and the flag `in_use` -/

theorem bothWrites_append (prev : Option HwEvent) (xs ys : List HwEvent)
    (hxs : bothWrites prev xs = true) (hys : ∀ q, bothWrites q ys = true) :
    bothWrites prev (xs ++ ys) = true := by
  induction xs generalizing prev with
  | nil => exact hys prev
  | cons e es ih =>
    cases e with
    | writel v a => exact ih _ hxs
    | dev_err msg => exact ih _ hxs
    | ctxld_write c v o =>
      simp only [List.cons_append, bothWrites, Bool.and_eq_true] at hxs ⊢
      exact ⟨hxs.1, ih _ hxs.2⟩

theorem bothWrites_append_all (xs ys : List HwEvent)
    (hxs : ∀ q, bothWrites q xs = true) (hys : ∀ q, bothWrites q ys = true) :
    ∀ q, bothWrites q (xs ++ ys) = true :=
  fun q => bothWrites_append q xs ys (hxs q) hys

theorem bothWrites_writeEvents (ss : dcss_ss_priv) (val ofs : Nat) (h : ss.in_use = false) :
    ∀ q, bothWrites q (writeEvents ss val ofs) = true := by
  intro q
  simp [writeEvents, h, bothWrites]

theorem bothWrites_syncEvents (ss : dcss_ss_priv) (vm : videomode) (phsync pvsync : Bool)
    (h : ss.in_use = false) : ∀ q, bothWrites q (syncEvents ss vm phsync pvsync) = true := by
  unfold syncEvents
  exact bothWrites_append_all _ _
    (bothWrites_append_all _ _
      (bothWrites_append_all _ _
        (bothWrites_append_all _ _ (bothWrites_writeEvents ss _ _ h)
          (bothWrites_writeEvents ss _ _ h))
        (bothWrites_writeEvents ss _ _ h))
      (bothWrites_writeEvents ss _ _ h))
    (bothWrites_writeEvents ss _ _ h)

theorem init_alloc (CTX_SB_HP : Nat) (ENOMEM : Int) (ioremap : Nat) (dcss : dcss_soc)
    (ss_base : Nat) :
    ∃ ss new, (dcss_ss_init CTX_SB_HP ENOMEM true ioremap dcss ss_base).2.ss_priv = some ss
      ∧ ss.in_use = false
      ∧ (dcss_ss_init CTX_SB_HP ENOMEM true ioremap dcss ss_base).2.log = dcss.log ++ new
      ∧ ∀ q, bothWrites q new = true := by
  by_cases h0 : ioremap = 0
  · refine ⟨{ base_reg := 0, base_ofs := 0, ctx_id := 0, in_use := false },
      [HwEvent.dev_err "ss: unable to remap ss base\n"], ?_, ?_, ?_, ?_⟩
    · simp [dcss_ss_init, h0]
    · rfl
    · simp [dcss_ss_init, h0]
    · intro q
      rfl
  · have key : ∀ ss : dcss_ss_priv,
        ss = { base_reg := ioremap, base_ofs := u32 ss_base, ctx_id := CTX_SB_HP,
               in_use := false } →
        ∃ ss2 new, (dcss_ss_init CTX_SB_HP ENOMEM true ioremap dcss ss_base).2.ss_priv = some ss2
          ∧ ss2.in_use = false
          ∧ (dcss_ss_init CTX_SB_HP ENOMEM true ioremap dcss ss_base).2.log = dcss.log ++ new
          ∧ ∀ q, bothWrites q new = true := by
      intro ss hss
      refine ⟨ss,
        writeEvents ss 0x41614161 DCSS_SS_COEFF ++ writeEvents ss 0x03ff0000 DCSS_SS_CLIP_CB
          ++ writeEvents ss 0x03ff0000 DCSS_SS_CLIP_CR, ?_, by rw [hss], ?_, ?_⟩
      · simp [dcss_ss_init, h0, hss]
      · simp [dcss_ss_init, h0, dcss_ss_write_eq, hss]
      · have hin : ss.in_use = false := by rw [hss]
        exact bothWrites_append_all _ _
          (bothWrites_append_all _ _ (bothWrites_writeEvents _ _ _ hin)
            (bothWrites_writeEvents _ _ _ hin))
          (bothWrites_writeEvents _ _ _ hin)
    exact key _ rfl

theorem step_keeps (CTX_SB_HP : Nat) (ENOMEM : Int) (dcss : dcss_soc) (ss : dcss_ss_priv)
    (op : Op) (hss : dcss.ss_priv = some ss) (hin : ss.in_use = false) :
    ∃ after ss2 new, step CTX_SB_HP ENOMEM dcss op = some after
      ∧ after.ss_priv = some ss2 ∧ ss2.in_use = false
      ∧ after.log = dcss.log ++ new ∧ ∀ q, bothWrites q new = true := by
  cases op with
  | ss_init kzalloc ioremap ss_base =>
    cases kzalloc with
    | false =>
      exact ⟨dcss, ss, [], by simp [step, dcss_ss_init], hss, hin, by simp,
        fun q => rfl⟩
    | true =>
      obtain ⟨ss2, new, h1, h2, h3, h4⟩ := init_alloc CTX_SB_HP ENOMEM ioremap dcss ss_base
      exact ⟨_, ss2, new, rfl, h1, h2, h3, h4⟩
  | ss_sync_set vm phsync pvsync =>
    exact ⟨_, ss, _, sync_set_eq dcss ss vm phsync pvsync hss, hss, hin, rfl,
      bothWrites_syncEvents ss vm phsync pvsync hin⟩
  | ss_enable en =>
    refine ⟨{ dcss with
        log := dcss.log ++ (writeEvents ss (if en then RUN_EN else 0) DCSS_SS_SYS_CTRL) },
      ss, _, ?_, hss, hin, rfl, bothWrites_writeEvents ss _ _ hin⟩
    simp [step, dcss_ss_enable, hss, dcss_ss_write_eq]
  | ss_exit =>
    refine ⟨{ dcss with log := dcss.log ++ [HwEvent.writel 0 (ss.base_reg + DCSS_SS_SYS_CTRL)] },
      ss, _, ?_, hss, hin, rfl, fun q => rfl⟩
    simp [step, dcss_ss_exit, hss]

theorem run_keeps (CTX_SB_HP : Nat) (ENOMEM : Int) (ops : List Op) (dcss : dcss_soc)
    (ss : dcss_ss_priv) (hss : dcss.ss_priv = some ss) (hin : ss.in_use = false) :
    ∃ after ss2 new, run CTX_SB_HP ENOMEM ops dcss = some after
      ∧ after.ss_priv = some ss2 ∧ ss2.in_use = false
      ∧ after.log = dcss.log ++ new ∧ ∀ q, bothWrites q new = true := by
  induction ops generalizing dcss ss with
  | nil => exact ⟨dcss, ss, [], rfl, hss, hin, by simp, fun q => rfl⟩
  | cons op ops ih =>
    obtain ⟨mid, ss1, new1, h1, h2, h3, h4, h5⟩ := step_keeps CTX_SB_HP ENOMEM dcss ss op hss hin
    obtain ⟨after, ss2, new2, k1, k2, k3, k4, k5⟩ := ih mid ss1 h2 h3
    refine ⟨after, ss2, new1 ++ new2, ?_, k2, k3, ?_, bothWrites_append_all _ _ h5 k5⟩
    · simp [run, h1, k1]
    · rw [k4, h4, List.append_assoc]

theorem step_never_sets (CTX_SB_HP : Nat) (ENOMEM : Int) (dcss after : dcss_soc) (op : Op)
    (ss2 : dcss_ss_priv) (hstep : step CTX_SB_HP ENOMEM dcss op = some after)
    (hss : after.ss_priv = some ss2) (hin : ss2.in_use = true) :
    ∃ ss, dcss.ss_priv = some ss ∧ ss.in_use = true := by
  rcases hd : dcss.ss_priv with _ | ss
  · cases op with
    | ss_init kzalloc ioremap ss_base =>
      cases kzalloc with
      | false =>
        simp [step, dcss_ss_init] at hstep
        subst hstep
        rw [hd] at hss
        exact absurd hss (by simp)
      | true =>
        obtain ⟨ss3, new, h1, h2, _, _⟩ := init_alloc CTX_SB_HP ENOMEM ioremap dcss ss_base
        simp only [step, Option.some.injEq] at hstep
        rw [← hstep, h1, Option.some.injEq] at hss
        rw [← hss, h2] at hin
        exact absurd hin (by simp)
    | ss_sync_set vm phsync pvsync => simp [step, dcss_ss_sync_set, hd] at hstep
    | ss_enable en => simp [step, dcss_ss_enable, hd] at hstep
    | ss_exit => simp [step, dcss_ss_exit, hd] at hstep
  · by_cases hi : ss.in_use = true
    · exact ⟨ss, rfl, hi⟩
    · have hi2 : ss.in_use = false := by simpa using hi
      obtain ⟨a2, ss3, new, h1, h2, h3, _, _⟩ :=
        step_keeps CTX_SB_HP ENOMEM dcss ss op hd hi2
      rw [hstep, Option.some.injEq] at h1
      rw [h1, h2, Option.some.injEq] at hss
      rw [← hss, h3] at hin
      exact absurd hin (by simp)

/-- C17: `dcss_ss_write` always queues the value to the context loader, at the
offset `base_ofs + ofs` and with the context id `ctx_id`, and writes it to the
register at `base_reg + ofs` as well exactly when `in_use` is false.  No
operation of the file sets `in_use`: when the flag is set after a call it was
set before.  So from the state `dcss_ss_init` leaves when its allocation
succeeds, every sequence of calls of the four operations runs through, `in_use`
is false at its end, every value queued to the context loader during it comes
right after the register write of the same value, and a `dcss_ss_write` made
then performs both writes. -/
theorem write_paths_and_in_use (CTX_SB_HP : Nat) (ENOMEM : Int) :
    (∀ (ss : dcss_ss_priv) (val ofs : Nat) (log : List HwEvent),
        dcss_ss_write ss val ofs log
          = log ++ (if ss.in_use then [] else [HwEvent.writel (u32 val) (ss.base_reg + u32 ofs)])
              ++ [HwEvent.ctxld_write ss.ctx_id (u32 val) (add32 ss.base_ofs (u32 ofs))])
    ∧ (∀ (dcss after : dcss_soc) (op : Op) (ss2 : dcss_ss_priv),
        step CTX_SB_HP ENOMEM dcss op = some after → after.ss_priv = some ss2 →
        ss2.in_use = true → ∃ ss, dcss.ss_priv = some ss ∧ ss.in_use = true)
    ∧ ∀ (ioremap : Nat) (dcss : dcss_soc) (ss_base : Nat) (ops : List Op),
        ∃ after ss,
          run CTX_SB_HP ENOMEM ops (dcss_ss_init CTX_SB_HP ENOMEM true ioremap dcss ss_base).2
              = some after
          ∧ after.ss_priv = some ss ∧ ss.in_use = false
          ∧ bothWrites none (after.log.drop dcss.log.length) = true
          ∧ ∀ (val ofs : Nat) (log : List HwEvent),
              dcss_ss_write ss val ofs log
                = log ++ [HwEvent.writel (u32 val) (ss.base_reg + u32 ofs),
                          HwEvent.ctxld_write ss.ctx_id (u32 val) (add32 ss.base_ofs (u32 ofs))] := by
  refine ⟨?_, ?_, ?_⟩
  · intro ss val ofs log
    rw [dcss_ss_write_eq, writeEvents, List.append_assoc]
  · intro dcss after op ss2 h1 h2 h3
    exact step_never_sets CTX_SB_HP ENOMEM dcss after op ss2 h1 h2 h3
  · intro ioremap dcss ss_base ops
    obtain ⟨ss1, new1, h1, h2, h3, h4⟩ := init_alloc CTX_SB_HP ENOMEM ioremap dcss ss_base
    obtain ⟨after, ss2, new2, k1, k2, k3, k4, k5⟩ :=
      run_keeps CTX_SB_HP ENOMEM ops _ ss1 h1 h2
    refine ⟨after, ss2, k1, k2, k3, ?_, ?_⟩
    · rw [k4, h3, List.append_assoc, List.drop_left]
      exact bothWrites_append_all _ _ h4 k5 none
    · intro val ofs log
      rw [dcss_ss_write_eq, writeEvents, k3]
      simp

/-- C17, witness: after a successful `dcss_ss_init`, a mode set, an enable and an
exit run through and leave `in_use` false; the record then holds ten register
writes and nine writes queued to the context loader. -/
theorem write_paths_and_in_use_witness :
    (∃ after ss,
        run 1 12
            [Op.ss_sync_set mode1080p true false, Op.ss_enable true, Op.ss_exit]
            (dcss_ss_init 1 12 true 0xffff0000 { ss_priv := none, log := [] } 0x32e20000).2
          = some after
        ∧ after.ss_priv = some ss ∧ ss.in_use = false
        ∧ bothWrites none (after.log.drop 0) = true)
    ∧ (run 1 12 [Op.ss_sync_set mode1080p true false, Op.ss_enable true, Op.ss_exit]
          readySoc).map (fun d => ((directWrites d.log).length, (ctxldWrites d.log).length))
        = some (10, 9) := by
  refine ⟨?_, by decide⟩
  obtain ⟨after, ss, h1, h2, h3, h4, _⟩ :=
    (write_paths_and_in_use 1 12).2.2 0xffff0000 { ss_priv := none, log := [] } 0x32e20000
      [Op.ss_sync_set mode1080p true false, Op.ss_enable true, Op.ss_exit]
  exact ⟨after, ss, h1, h2, h3, h4⟩

end DcssSs
